import Mathlib

/-!
Shallow embedding of the key-level detection engines of the keylevels-ai
backend (`app/services/key_levels.py`, `app/services/institutional_key_levels.py`)
and of the `/api/keylevels` route (`app/api/routes.py`).

Conventions of the embedding:
* prices and volumes are rationals (`ℚ`); timestamps are unix seconds (`ℤ`);
* a pandas DataFrame of OHLCV rows is a `List Bar` in index (time) order;
* division on `ℚ` is total with `x / 0 = 0`;
* `np.exp` (used only by the baseline recency score) is an explicit function
  argument `expQ : ℚ → ℚ` of the scoring stage, since the claims under study
  never depend on its values;
* md5 zone ids are modelled by the data that is hashed (the fingerprint
  payload), not by the hash digest itself.
-/

set_option maxRecDepth 100000

/-- One OHLCV row.  `opn` is the `open` column (Lean keyword). -/
structure Bar where
  time : ℤ
  opn : ℚ
  high : ℚ
  low : ℚ
  close : ℚ
  volume : ℚ
deriving DecidableEq

instance : Inhabited Bar := ⟨⟨0, 0, 0, 0, 0, 0⟩⟩

/-- Spec §3 bar invariant: `low ≤ min(open,close) ≤ max(open,close) ≤ high`, `volume ≥ 0`. -/
def ValidBar (b : Bar) : Prop :=
  b.low ≤ min b.opn b.close ∧ max b.opn b.close ≤ b.high ∧ 0 ≤ b.volume

/-- All bars of the series are valid. -/
def ValidSeries (df : List Bar) : Prop := ∀ b ∈ df, ValidBar b

instance (b : Bar) : Decidable (ValidBar b) := by
  unfold ValidBar; infer_instance

instance (df : List Bar) : Decidable (ValidSeries df) := by
  unfold ValidSeries; infer_instance

/-- Mean of a list of rationals (`np.mean` / pandas `.mean()`); 0 on the empty list. -/
def listMean (xs : List ℚ) : ℚ := xs.sum / xs.length

/-- Max of a list of rationals (`.max()` on a nonempty slice); 0 on the empty list. -/
def qMaxL : List ℚ → ℚ
  | [] => 0
  | x :: xs => xs.foldl max x

/-- Min of a list of rationals (`.min()` on a nonempty slice); 0 on the empty list. -/
def qMinL : List ℚ → ℚ
  | [] => 0
  | x :: xs => xs.foldl min x

/-- Max of a list of timestamps (Python `max(times)` on a nonempty list); 0 on empty. -/
def intMaxL : List ℤ → ℤ
  | [] => 0
  | x :: xs => xs.foldl max x

/-- Round to the nearest integer, ties to even (Python `round`). -/
def roundHalfEven (x : ℚ) : ℤ :=
  let f := ⌊x⌋
  let r := x - f
  if r < 1/2 then f
  else if 1/2 < r then f + 1
  else if f % 2 = 0 then f else f + 1

/-- Python `round(x, 1)`: round to one decimal place, ties to even. -/
def round1 (x : ℚ) : ℚ := (roundHalfEven (10 * x) : ℚ) / 10

/-- The per-bar true range series (spec §3): `tr₀ = high₀ - low₀` (the
`close.shift(1)` terms are NaN on the first row and drop out of the row-wise
max), and `trᵢ = max(highᵢ-lowᵢ, |highᵢ-closeᵢ₋₁|, |lowᵢ-closeᵢ₋₁|)` after. -/
def trueRangeGo (prev : Bar) : List Bar → List ℚ
  | [] => []
  | b :: bs =>
    max (b.high - b.low) (max |b.high - prev.close| |b.low - prev.close|) :: trueRangeGo b bs

def trueRange : List Bar → List ℚ
  | [] => []
  | b :: bs => (b.high - b.low) :: trueRangeGo b bs

/-- Embeds `xs.rolling(window=period).mean().iloc[-1]`: the mean of the last `period`
entries when the window can fill, `none` (pandas NaN) otherwise. -/
def rollingMeanLast (xs : List ℚ) (period : ℕ) : Option ℚ :=
  if xs.length < period then none
  else some (listMean (xs.drop (xs.length - period)))

namespace KeyLevelsDetector

/-- Constructor arguments of `KeyLevelsDetector`. -/
structure Config where
  pivot_window : ℕ := 3
  atr_period : ℕ := 14
  atr_multiplier : ℚ := 3/10
  max_zones : ℕ := 6
deriving DecidableEq

/-- Embeds `KeyLevelsDetector._calculate_atr`: rolling mean of true range as of the
last bar; if that window cannot fill (series shorter than `atr_period`),
fall back to `(df['high'] - df['low']).mean()`. -/
def calculate_atr (cfg : Config) (df : List Bar) : ℚ :=
  match rollingMeanLast (trueRange df) cfg.atr_period with
  | some a => a
  | none => listMean (df.map fun b => b.high - b.low)

/-- Body of the `_find_pivot_highs` inner loop: bar `i` is a pivot high when
its high is strictly greater than the highs of the `w` bars on each side
(the loop breaks on `highs[i] <= highs[i-j] or highs[i] <= highs[i+j]`). -/
def isPivotHigh (w : ℕ) (highs : List ℚ) (i : ℕ) : Bool :=
  (List.range' 1 w).all fun j =>
    decide (highs.getD (i - j) 0 < highs.getD i 0) &&
    decide (highs.getD (i + j) 0 < highs.getD i 0)

/-- Mirror condition of `_find_pivot_lows`. -/
def isPivotLow (w : ℕ) (lows : List ℚ) (i : ℕ) : Bool :=
  (List.range' 1 w).all fun j =>
    decide (lows.getD i 0 < lows.getD (i - j) 0) &&
    decide (lows.getD i 0 < lows.getD (i + j) 0)

/-- Embeds `KeyLevelsDetector._find_pivot_highs`: scan `i ∈ range(w, len(df)-w)` and
emit `(timestamp, high)` for each pivot high. -/
def find_pivot_highs (cfg : Config) (df : List Bar) : List (ℤ × ℚ) :=
  let highs := df.map Bar.high
  (List.range' cfg.pivot_window (df.length - 2 * cfg.pivot_window)).filterMap fun i =>
    if isPivotHigh cfg.pivot_window highs i
    then some ((df.getD i default).time, highs.getD i 0) else none

/-- Embeds `KeyLevelsDetector._find_pivot_lows`. -/
def find_pivot_lows (cfg : Config) (df : List Bar) : List (ℤ × ℚ) :=
  let lows := df.map Bar.low
  (List.range' cfg.pivot_window (df.length - 2 * cfg.pivot_window)).filterMap fun i =>
    if isPivotLow cfg.pivot_window lows i
    then some ((df.getD i default).time, lows.getD i 0) else none

/-- Chain step of `_cluster_levels`: walk the price-sorted pivots, comparing
each to its predecessor in sorted order; within tolerance extends the current
cluster, otherwise the cluster is closed and a new one starts. -/
def clusterGo (tol : ℚ) (prev : ℤ × ℚ) (cur : List (ℤ × ℚ)) :
    List (ℤ × ℚ) → List (List (ℤ × ℚ))
  | [] => [cur]
  | q :: qs =>
    if |q.2 - prev.2| ≤ tol then clusterGo tol q (cur ++ [q]) qs
    else cur :: clusterGo tol q [q] qs

/-- The clusters formed by `_cluster_levels` from a price-sorted pivot list. -/
def splitClusters (tol : ℚ) : List (ℤ × ℚ) → List (List (ℤ × ℚ))
  | [] => []
  | p :: ps => clusterGo tol p [p] ps

/-- The data hashed into a baseline zone id:
`md5(f"{zone_type}_{center:.2f}_{len(cluster)}")[:12]`.  The digest is modelled
by its payload. -/
structure ZoneId where
  zone_type : String
  center : ℚ
  cluster_size : ℕ
deriving DecidableEq

/-- A baseline zone dictionary.  `touch_times` is the temporary field popped
during scoring; `strength`/`raw_strength` are filled in by `_score_zones`. -/
structure Zone where
  id : ZoneId
  type : String
  price_low : ℚ
  price_high : ℚ
  touches : ℕ
  last_touch_time : ℤ
  touch_times : List ℤ
  raw_strength : ℚ
  strength : ℚ
deriving DecidableEq

instance : Inhabited Zone := ⟨⟨⟨"", 0, 0⟩, "", 0, 0, 0, 0, [], 0, 0⟩⟩

/-- Embeds `KeyLevelsDetector._create_zone`. -/
def create_zone (cluster : List (ℤ × ℚ)) (tolerance : ℚ) (zone_type : String) : Zone :=
  let prices := cluster.map Prod.snd
  let times := cluster.map Prod.fst
  let center := listMean prices
  { id := ⟨zone_type, center, cluster.length⟩
    type := zone_type
    price_low := center - tolerance / 2
    price_high := center + tolerance / 2
    touches := cluster.length
    last_touch_time := intMaxL times
    touch_times := times
    raw_strength := 0
    strength := 0 }

/-- Embeds `KeyLevelsDetector._cluster_levels`: sort pivots by price (stable), chain
into clusters within `tolerance`, and build a zone from each cluster. -/
def cluster_levels (pivots : List (ℤ × ℚ)) (tolerance : ℚ) (zone_type : String) :
    List Zone :=
  (splitClusters tolerance (List.insertionSort (fun a b => a.2 ≤ b.2) pivots)).map
    fun c => create_zone c tolerance zone_type

/-- The body of the `_calculate_reaction_strength` loop at bar `idx`: `some`
of the absolute reaction when the bar touches the zone and at least one later
bar exists (`look_ahead > 0`), `none` otherwise. -/
def reactionItem (zone : Zone) (df : List Bar) (idx : ℕ) : Option ℚ :=
  let zone_center := (zone.price_low + zone.price_high) / 2
  let row := df.getD idx default
  if (zone.price_low ≤ row.low ∧ row.low ≤ zone.price_high) ∨
     (zone.price_low ≤ row.high ∧ row.high ≤ zone.price_high) then
    let look_ahead := min 5 (df.length - idx - 1)
    if 0 < look_ahead then
      let future_slice := (df.drop (idx + 1)).take look_ahead
      let reaction :=
        if zone.type = "support" then
          (qMaxL (future_slice.map Bar.high) - zone_center) / zone_center
        else
          (zone_center - qMinL (future_slice.map Bar.low)) / zone_center
      some |reaction|
    else none
  else none

/-- Embeds `KeyLevelsDetector._calculate_reaction_strength`: over each bar whose low
or high lies inside the zone band and which has at least one later bar, the
absolute look-ahead (≤ 5 bars) excursion relative to the zone center —
upward for support, downward otherwise — averaged, divided by 0.05 and capped
at 1; 0 when no bar qualifies. -/
def calculate_reaction_strength (zone : Zone) (df : List Bar) : ℚ :=
  let reactions := (List.range df.length).filterMap (reactionItem zone df)
  if reactions ≠ [] then min 1 (listMean reactions / (5/100)) else 0

/-- Embeds `KeyLevelsDetector._score_zones` applied to one zone (the loop body).
`expQ` models `np.exp`. -/
def scoreZone (expQ : ℚ → ℚ) (df : List Bar) (max_touches : ℕ) (zone : Zone) : Zone :=
  let current_time := ((df.getLast?).getD default).time
  let time_range := current_time - ((df.head?).getD default).time
  let touch_score : ℚ := if 0 < max_touches then (zone.touches : ℚ) / max_touches else 0
  let time_diff := current_time - zone.last_touch_time
  let recency_score := if 0 < time_range
    then expQ (-(time_diff : ℚ) / ((time_range : ℚ) / 2)) else 1/2
  let reaction_score := calculate_reaction_strength zone df
  let strength := 4/10 * touch_score + 3/10 * reaction_score + 3/10 * recency_score
  { zone with
    strength := min 1 (max 0 strength)
    raw_strength := strength
    touch_times := [] }

/-- Embeds `KeyLevelsDetector._score_zones`. -/
def score_zones (expQ : ℚ → ℚ) (zones : List Zone) (df : List Bar) : List Zone :=
  if zones = [] then []
  else
    let max_touches := (zones.map Zone.touches).foldl max 0
    zones.map (scoreZone expQ df max_touches)

/-- Embeds `KeyLevelsDetector.detect_zones`: the `ValueError("Not enough data…")`
raised when `len(df) < pivot_window*2 + atr_period` becomes `Except.error`. -/
def detect_zones (cfg : Config) (expQ : ℚ → ℚ) (df : List Bar) :
    Except String (List Zone) :=
  if df.length < cfg.pivot_window * 2 + cfg.atr_period then
    Except.error "Not enough data"
  else
    let atr := calculate_atr cfg df
    let tolerance := atr * cfg.atr_multiplier
    let pivot_highs := find_pivot_highs cfg df
    let pivot_lows := find_pivot_lows cfg df
    let resistance_zones := cluster_levels pivot_highs tolerance "resistance"
    let support_zones := cluster_levels pivot_lows tolerance "support"
    let all_zones := resistance_zones ++ support_zones
    let scored_zones := score_zones expQ all_zones df
    Except.ok ((List.insertionSort (fun a b => b.strength ≤ a.strength) scored_zones).take
      cfg.max_zones)

end KeyLevelsDetector

namespace InstitutionalKeyLevels

/-- Constructor arguments of `InstitutionalKeyLevels`. -/
structure Config where
  min_touches : ℕ := 2
  min_reaction_atr : ℚ := 3/2
  volume_threshold_percentile : ℚ := 70
  max_levels : ℕ := 7
  merge_tolerance_atr : ℚ := 1/2
  broken_level_invalidation : Bool := true
deriving DecidableEq

/-- Embeds `InstitutionalKeyLevels._calculate_atr`: same rolling true-range mean, but
the short-series fallback is `(df['high'].mean() - df['low'].mean()) * 0.02`. -/
def calculate_atr (df : List Bar) (period : ℕ) : ℚ :=
  match rollingMeanLast (trueRange df) period with
  | some a => a
  | none => (listMean (df.map Bar.high) - listMean (df.map Bar.low)) * (2/100)

/-- Embeds `InstitutionalKeyLevels._get_timeframe_weight`. -/
def get_timeframe_weight (timeframe : String) : ℚ :=
  if timeframe = "1d" then 1
  else if timeframe = "4h" then 8/10
  else if timeframe = "1h" then 6/10
  else if timeframe = "15m" then 4/10
  else 7/10

/-- pandas `Series.quantile(q)` with the default linear interpolation over the
sorted values. -/
def quantile (xs : List ℚ) (q : ℚ) : ℚ :=
  let s := List.insertionSort (· ≤ ·) xs
  if s.length = 0 then 0
  else
    let pos := q * ((s.length : ℚ) - 1)
    let i := (⌊pos⌋).toNat
    let frac := pos - (⌊pos⌋ : ℚ)
    s.getD i 0 + frac * (s.getD (i + 1) 0 - s.getD i 0)

/-- A candidate zone dictionary as emitted by the four generators.  Optional
dict keys become `Option` fields. -/
structure Candidate where
  price_low : ℚ
  price_high : ℚ
  touches : ℕ
  last_touch_time : ℤ
  source : String
  reaction_strength : Option ℚ := none
  avg_volume : Option ℚ := none
  consolidation_strength : Option ℚ := none
  structure_type : Option String := none
deriving DecidableEq

/-- The mutable cluster record of `_detect_volume_nodes`.  `price` is fixed at
creation (the first member's mid-price) and is what later bars are compared
against. -/
structure VCluster where
  price : ℚ
  prices : List ℚ
  volumes : List ℚ
  times : List ℤ
deriving DecidableEq

/-- One iteration of the `_detect_volume_nodes` grouping loop: the bar's
mid-price joins the first existing cluster within `tolerance`, else a new
cluster is appended at the end. -/
def addToVClusters (tolerance : ℚ) (price vol : ℚ) (t : ℤ) :
    List VCluster → List VCluster
  | [] => [⟨price, [price], [vol], [t]⟩]
  | c :: cs =>
    if |price - c.price| ≤ tolerance then
      ⟨c.price, c.prices ++ [price], c.volumes ++ [vol], c.times ++ [t]⟩ :: cs
    else c :: addToVClusters tolerance price vol t cs

/-- Embeds `InstitutionalKeyLevels._detect_volume_nodes`. -/
def detect_volume_nodes (cfg : Config) (df : List Bar) (atr : ℚ) : List Candidate :=
  let volume_threshold := quantile (df.map Bar.volume) (cfg.volume_threshold_percentile / 100)
  let high_vol_bars := df.filter fun b => decide (volume_threshold ≤ b.volume)
  if high_vol_bars.length < 2 then []
  else
    let tolerance := atr * cfg.merge_tolerance_atr
    let price_clusters := high_vol_bars.foldl
      (fun cs b => addToVClusters tolerance ((b.high + b.low) / 2) b.volume b.time cs) []
    price_clusters.filterMap fun c =>
      if cfg.min_touches ≤ c.prices.length then
        let avg_price := listMean c.prices
        some { price_low := avg_price - atr * (3/10)
               price_high := avg_price + atr * (3/10)
               touches := c.prices.length
               avg_volume := some (listMean c.volumes)
               last_touch_time := intMaxL c.times
               source := "volume_node" }
      else none

/-- Embeds `InstitutionalKeyLevels._detect_rejection_zones`: for `i ∈ range(5, n-5)`,
a bar whose high (low) equals the max (min) of the 11-bar window around it and
whose move away within the next 10 bars is ≥ `min_reaction_atr·ATR` yields a
single-touch candidate. -/
def detect_rejection_zones (cfg : Config) (df : List Bar) (atr : ℚ) : List Candidate :=
  (List.range' 5 (df.length - 10)).flatMap fun i =>
    (if (df.getD i default).high = qMaxL (((df.drop (i - 5)).take 11).map Bar.high) then
      if cfg.min_reaction_atr * atr ≤
          (df.getD i default).high - qMinL (((df.drop i).take 10).map Bar.low) then
        [{ price_low := (df.getD i default).high - atr * (3/10),
           price_high := (df.getD i default).high + atr * (3/10),
           touches := 1,
           reaction_strength := some
             (((df.getD i default).high - qMinL (((df.drop i).take 10).map Bar.low)) / atr),
           last_touch_time := (df.getD i default).time, source := "rejection_high" }]
      else []
    else []) ++
    (if (df.getD i default).low = qMinL (((df.drop (i - 5)).take 11).map Bar.low) then
      if cfg.min_reaction_atr * atr ≤
          qMaxL (((df.drop i).take 10).map Bar.high) - (df.getD i default).low then
        [{ price_low := (df.getD i default).low - atr * (3/10),
           price_high := (df.getD i default).low + atr * (3/10),
           touches := 1,
           reaction_strength := some
             ((qMaxL (((df.drop i).take 10).map Bar.high) - (df.getD i default).low) / atr),
           last_touch_time := (df.getD i default).time, source := "rejection_low" }]
      else []
    else [])

/-- Embeds `InstitutionalKeyLevels._detect_consolidation_expansion` (window = 20). -/
def detect_consolidation_expansion (df : List Bar) (atr : ℚ) : List Candidate :=
  (List.range' 20 (df.length - 40)).filterMap fun i =>
    if (qMaxL (((df.drop (i - 20)).take 20).map Bar.high) -
        qMinL (((df.drop (i - 20)).take 20).map Bar.low)) / (df.getD i default).close <
        5/100 then
      if 10/100 < (qMaxL (((df.drop i).take 20).map Bar.high) -
          qMinL (((df.drop i).take 20).map Bar.low)) / (df.getD i default).close then
        some { price_low := (qMaxL (((df.drop (i - 20)).take 20).map Bar.high) +
                 qMinL (((df.drop (i - 20)).take 20).map Bar.low)) / 2 - atr * (4/10)
               price_high := (qMaxL (((df.drop (i - 20)).take 20).map Bar.high) +
                 qMinL (((df.drop (i - 20)).take 20).map Bar.low)) / 2 + atr * (4/10)
               touches := 2
               consolidation_strength := some
                 (((qMaxL (((df.drop i).take 20).map Bar.high) -
                    qMinL (((df.drop i).take 20).map Bar.low)) / (df.getD i default).close) /
                  ((qMaxL (((df.drop (i - 20)).take 20).map Bar.high) -
                    qMinL (((df.drop (i - 20)).take 20).map Bar.low)) / (df.getD i default).close))
               last_touch_time := (df.getD i default).time
               source := "consolidation_expansion" }
      else none
    else none

/-- Embeds `InstitutionalKeyLevels._detect_structure_breaks` (lookback = 20). -/
def detect_structure_breaks (df : List Bar) (atr : ℚ) : List Candidate :=
  (List.range' 20 (df.length - 25)).flatMap fun i =>
    (if qMaxL (((df.drop (i - 20)).take 20).map Bar.high) < (df.getD i default).close ∧
        atr * (5/10) < (df.getD i default).close - (df.getD i default).opn then
      [{ price_low := qMaxL (((df.drop (i - 20)).take 20).map Bar.high) - atr * (3/10),
         price_high := qMaxL (((df.drop (i - 20)).take 20).map Bar.high) + atr * (3/10),
         touches := 1, structure_type := some "bullish_bos",
         last_touch_time := (df.getD i default).time, source := "structure_break" }]
    else []) ++
    (if (df.getD i default).close < qMinL (((df.drop (i - 20)).take 20).map Bar.low) ∧
        atr * (5/10) < (df.getD i default).opn - (df.getD i default).close then
      [{ price_low := qMinL (((df.drop (i - 20)).take 20).map Bar.low) - atr * (3/10),
         price_high := qMinL (((df.drop (i - 20)).take 20).map Bar.low) + atr * (3/10),
         touches := 1, structure_type := some "bearish_bos",
         last_touch_time := (df.getD i default).time, source := "structure_break" }]
    else [])

/-- The keep/drop decision of `_remove_broken_levels` for one zone: keep when
no bar fully engulfs the zone; otherwise, at the first engulfing bar `i`, keep
only when `i < len(df) - 10` and some bar `j ∈ range(i+1, min(i+20, len(df)))`
closes strictly within the zone's width of its midpoint. -/
def keepLevel (df : List Bar) (z : Candidate) : Bool :=
  let zone_mid := (z.price_low + z.price_high) / 2
  match df.findIdx? (fun b => decide (b.low < z.price_low) && decide (z.price_high < b.high)) with
  | none => true
  | some i =>
    decide (i + 10 < df.length) &&
    (List.range' (i + 1) (min (i + 20) df.length - (i + 1))).any fun j =>
      decide (|(df.getD j default).close - zone_mid| < z.price_high - z.price_low)

/-- Embeds `InstitutionalKeyLevels._remove_broken_levels`. -/
def remove_broken_levels (zones : List Candidate) (df : List Bar) : List Candidate :=
  zones.filter (keepLevel df)

/-- A zone dictionary after `_merge_cluster`: `source` has become the set
`sources` and only `reaction_strength`/`avg_volume` are carried over. -/
structure MergedZone where
  price_low : ℚ
  price_high : ℚ
  touches : ℕ
  last_touch_time : ℤ
  sources : List String
  reaction_strength : Option ℚ
  avg_volume : Option ℚ
deriving DecidableEq

def candMid (z : Candidate) : ℚ := (z.price_low + z.price_high) / 2

/-- Chain step of `_merge_nearby_zones`: the next zone (in mid-price order)
joins the running cluster when its mid is within tolerance of the cluster's
mean mid. -/
def mergeGo (tol : ℚ) (cur : List Candidate) : List Candidate → List (List Candidate)
  | [] => [cur]
  | z :: zs =>
    if |candMid z - listMean (cur.map candMid)| ≤ tol then mergeGo tol (cur ++ [z]) zs
    else cur :: mergeGo tol [z] zs

def mergeClusters (tol : ℚ) : List Candidate → List (List Candidate)
  | [] => []
  | z :: zs => mergeGo tol [z] zs

/-- Embeds `InstitutionalKeyLevels._merge_cluster`. -/
def merge_cluster (cluster : List Candidate) : MergedZone :=
  let rss := cluster.filterMap Candidate.reaction_strength
  let vols := cluster.filterMap Candidate.avg_volume
  { price_low := listMean (cluster.map Candidate.price_low)
    price_high := listMean (cluster.map Candidate.price_high)
    touches := (cluster.map Candidate.touches).sum
    last_touch_time := intMaxL (cluster.map Candidate.last_touch_time)
    sources := (cluster.map Candidate.source).dedup
    reaction_strength := if rss = [] then none else some (listMean rss)
    avg_volume := if vols = [] then none else some (listMean vols) }

/-- Embeds `InstitutionalKeyLevels._merge_nearby_zones`. -/
def merge_nearby_zones (cfg : Config) (zones : List Candidate) (atr : ℚ) :
    List MergedZone :=
  (mergeClusters (atr * cfg.merge_tolerance_atr)
    (List.insertionSort (fun a b => candMid a ≤ candMid b) zones)).map merge_cluster

/-- A zone dictionary after `_score_zones`. -/
structure ScoredZone where
  price_low : ℚ
  price_high : ℚ
  touches : ℕ
  last_touch_time : ℤ
  sources : List String
  reaction_strength : Option ℚ
  avg_volume : Option ℚ
  confidence : ℚ
  strength : ℚ
deriving DecidableEq

/-- The capped component sum of `_score_zones` before the timeframe weight:
touches, reaction strength, volume profile, recency (in whole days, pandas
`Timedelta.days` = floor division of the second difference by 86400) and the
multi-source bonus. -/
def rawScore (df : List Bar) (z : MergedZone) : ℚ :=
  let latest_time := ((df.getLast?).getD default).time
  let touch_score := min ((z.touches : ℚ) * 5) 30
  let reaction_score := match z.reaction_strength with
    | some rs => min (rs * 5) 25
    | none => 0
  let vol_score := match z.avg_volume with
    | some v => min (v / listMean (df.map Bar.volume) * 100 / 5) 20
    | none => 0
  let time_diff : ℤ := Int.fdiv (latest_time - z.last_touch_time) 86400
  let recency_score := max (15 - (time_diff : ℚ) / 10) 0
  let source_bonus : ℚ := if 1 < z.sources.length then 10 else 0
  touch_score + reaction_score + vol_score + recency_score + source_bonus

/-- The `_score_zones` loop body: scale by the timeframe weight, cap at 100,
store `round(confidence, 1)` as `confidence` and the uncapped-by-rounding
`confidence / 100` as `strength`. -/
def scoreZoneI (df : List Bar) (tf_weight : ℚ) (z : MergedZone) : ScoredZone :=
  let score := rawScore df z * tf_weight
  let confidence := min score 100
  { price_low := z.price_low, price_high := z.price_high, touches := z.touches
    last_touch_time := z.last_touch_time, sources := z.sources
    reaction_strength := z.reaction_strength, avg_volume := z.avg_volume
    confidence := round1 confidence, strength := confidence / 100 }

/-- Embeds `InstitutionalKeyLevels._score_zones` (`atr` is accepted and unused, as in
the source). -/
def score_zones (zones : List MergedZone) (df : List Bar) (atr : ℚ) (tf_weight : ℚ) :
    List ScoredZone :=
  zones.map (scoreZoneI df tf_weight)

/-- Payload of the institutional zone id `md5(f"{zone_type}_{zone_mid:.2f}")[:16]`. -/
structure ZoneIdI where
  zone_type : String
  mid : ℚ
deriving DecidableEq

/-- A final output zone of `detect_levels` (after `_classify_zones` popped the
`sources`/`source` keys and added `type`/`id`). -/
structure IKeyZone where
  price_low : ℚ
  price_high : ℚ
  touches : ℕ
  last_touch_time : ℤ
  reaction_strength : Option ℚ
  avg_volume : Option ℚ
  confidence : ℚ
  strength : ℚ
  type : String
  id : ZoneIdI
deriving DecidableEq

/-- The `_classify_zones` loop body. -/
def classifyZone (df : List Bar) (z : ScoredZone) : IKeyZone :=
  let current_price := ((df.getLast?).getD default).close
  let zone_mid := (z.price_low + z.price_high) / 2
  let start := df.length - 50
  let near := (List.range' start (df.length - start)).filter fun i =>
    decide (|(df.getD i default).close - zone_mid| < z.price_high - z.price_low)
  let touches_above := (near.filter fun i => decide (zone_mid < (df.getD i default).close)).length
  let touches_below := (near.filter fun i => decide ¬(zone_mid < (df.getD i default).close)).length
  let zone_type :=
    if z.price_high < current_price then "support"
    else if current_price < z.price_low then "resistance"
    else if 0 < touches_above ∧ 0 < touches_below then "equilibrium"
    else if zone_mid < current_price then "support" else "resistance"
  { price_low := z.price_low, price_high := z.price_high, touches := z.touches
    last_touch_time := z.last_touch_time
    reaction_strength := z.reaction_strength, avg_volume := z.avg_volume
    confidence := z.confidence, strength := z.strength
    type := zone_type, id := ⟨zone_type, zone_mid⟩ }

/-- Embeds `InstitutionalKeyLevels._classify_zones`. -/
def classify_zones (zones : List ScoredZone) (df : List Bar) : List IKeyZone :=
  zones.map (classifyZone df)

/-- Embeds `InstitutionalKeyLevels.detect_levels`: note the guard `if len(df) < 50:
return []` — a too-short series yields an empty list, not an error. -/
def detect_levels (cfg : Config) (df : List Bar) (timeframe : String) : List IKeyZone :=
  if df.length < 50 then []
  else
    let atr := calculate_atr df 14
    let tf_weight := get_timeframe_weight timeframe
    let all_zones := detect_volume_nodes cfg df atr ++ detect_rejection_zones cfg df atr ++
      detect_consolidation_expansion df atr ++ detect_structure_breaks df atr
    let filtered_zones := all_zones.filter fun z => decide (cfg.min_touches ≤ z.touches)
    let filtered_zones' := if cfg.broken_level_invalidation
      then remove_broken_levels filtered_zones df else filtered_zones
    let merged_zones := merge_nearby_zones cfg filtered_zones' atr
    let scored_zones := score_zones merged_zones df atr tf_weight
    let top_zones := ((List.insertionSort (fun a b =>
      b.confidence ≤ a.confidence) scored_zones).take cfg.max_levels)
    classify_zones top_zones df

/-- The record returned by `InstitutionalKeyLevels.get_algorithm_params`. -/
structure AlgorithmParams where
  min_touches : ℕ
  min_reaction_atr : ℚ
  volume_threshold_percentile : ℚ
  max_levels : ℕ
  merge_tolerance_atr : ℚ
  broken_level_invalidation : Bool
  algorithm : String
deriving DecidableEq

/-- Embeds `InstitutionalKeyLevels.get_algorithm_params`. -/
def get_algorithm_params (cfg : Config) : AlgorithmParams :=
  { min_touches := cfg.min_touches
    min_reaction_atr := cfg.min_reaction_atr
    volume_threshold_percentile := cfg.volume_threshold_percentile
    max_levels := cfg.max_levels
    merge_tolerance_atr := cfg.merge_tolerance_atr
    broken_level_invalidation := cfg.broken_level_invalidation
    algorithm := "institutional_key_levels_v1" }

end InstitutionalKeyLevels

namespace routes

/-- Python truthiness of `x or default` on an optional integer query
parameter: `None` and `0` both fall back to the default. -/
def orDefault (o : Option ℕ) (d : ℕ) : ℕ :=
  match o with
  | none => d
  | some n => if n = 0 then d else n

/-- Embeds `DEFAULT_LOOKBACK.get(tf, 90)` from `app/api/routes.py`. -/
def DEFAULT_LOOKBACK (tf : String) : ℕ :=
  if tf = "1d" then 365
  else if tf = "4h" then 90
  else if tf = "1h" then 30
  else if tf = "15m" then 30
  else 90

/-- Embeds `settings.PIVOT_WINDOW` (app/core/config.py). -/
def settingsPIVOT_WINDOW : ℕ := 3

/-- Embeds `settings.MAX_ZONES` (app/core/config.py). -/
def settingsMAX_ZONES : ℕ := 6

/-- The detector constructed inside `get_key_levels` ("STRICT MODE"): every
field is a literal, independent of the request's query parameters. -/
def strictDetector : InstitutionalKeyLevels.Config :=
  { min_touches := 3
    min_reaction_atr := 2
    volume_threshold_percentile := 75
    max_levels := 5
    merge_tolerance_atr := 8/10
    broken_level_invalidation := true }

/-- Embeds `cache.make_key(*parts)` = `":".join(parts)`. -/
def make_key (parts : List String) : String := String.intercalate ":" parts

/-- The body of the `KeyLevelsResponse` pydantic model that `get_key_levels`
builds (the `computed_at` wall-clock field is omitted: it is real time, not a
function of the inputs). -/
structure KeyLevelsResponse where
  ticker : String
  timeframe : String
  lookback : ℕ
  zones : List InstitutionalKeyLevels.IKeyZone
  algorithm_params : InstitutionalKeyLevels.AlgorithmParams
deriving DecidableEq

/-- The cold-cache path of `GET /api/keylevels` (routes.py `get_key_levels`)
after timeframe validation, given the series `df` the data provider returned:
resolve defaults, build the cache key, run the strict-mode detector, and
assemble the response.  Returns the cache key alongside the response. -/
def get_key_levels (ticker tf : String) (lookback pivot_window max_zones : Option ℕ)
    (df : List Bar) : String × KeyLevelsResponse :=
  let lookback := orDefault lookback (DEFAULT_LOOKBACK tf)
  let pivot_window := orDefault pivot_window settingsPIVOT_WINDOW
  let max_zones := orDefault max_zones settingsMAX_ZONES
  let cache_key := make_key ["keylevels", ticker.toUpper, tf, toString lookback,
    toString pivot_window, toString max_zones]
  let detector := strictDetector
  (cache_key,
   { ticker := ticker.toUpper
     timeframe := tf
     lookback := lookback
     zones := InstitutionalKeyLevels.detect_levels detector df tf
     algorithm_params := InstitutionalKeyLevels.get_algorithm_params detector })

end routes

/-! ### Well-formedness predicates used by the invariant claims -/

/-- The invariant carried by every generated candidate zone: ordered price
band, at least one touch, and non-negative optional metrics. -/
def CandWF (z : InstitutionalKeyLevels.Candidate) : Prop :=
  z.price_low ≤ z.price_high ∧ 1 ≤ z.touches ∧
  (∀ r, z.reaction_strength = some r → 0 ≤ r) ∧
  (∀ v, z.avg_volume = some v → 0 ≤ v)

/-- The same invariant for merged zones. -/
def MergedWF (z : InstitutionalKeyLevels.MergedZone) : Prop :=
  z.price_low ≤ z.price_high ∧ 1 ≤ z.touches ∧
  (∀ r, z.reaction_strength = some r → 0 ≤ r) ∧
  (∀ v, z.avg_volume = some v → 0 ≤ v)

/-! ### Claim-side specification definitions

These definitions follow the wording of the specification claims rather than
the source, to be compared with the code embeddings above. -/

/-- The signed look-ahead excursion of the claim at bar `idx`: the "most
favorable excursion away from the zone — upward (future max high minus
center) for support zones, downward (center minus future min low) for
resistance zones — divided by the zone-center price", for a touching bar
followed by at least one more bar. -/
def claimedItem (zone : KeyLevelsDetector.Zone) (df : List Bar) (idx : ℕ) : Option ℚ :=
  let center := (zone.price_low + zone.price_high) / 2
  let row := df.getD idx default
  if ((zone.price_low ≤ row.low ∧ row.low ≤ zone.price_high) ∨
      (zone.price_low ≤ row.high ∧ row.high ≤ zone.price_high)) ∧
      idx + 1 < df.length then
    let future := (df.drop (idx + 1)).take (min 5 (df.length - idx - 1))
    some (if zone.type = "support" then
            (qMaxL (future.map Bar.high) - center) / center
          else
            (center - qMinL (future.map Bar.low)) / center)
  else none

/-- The baseline reaction score as the spec words it, with the signed
excursion averaged over the qualifying bars and clamped to `[0,1]` after
dividing by 0.05.  The code instead takes the absolute value of each
excursion. -/
def reactionScoreClaimed (zone : KeyLevelsDetector.Zone) (df : List Bar) : ℚ :=
  let excursions := (List.range df.length).filterMap (claimedItem zone df)
  if excursions = [] then 0 else min 1 (max 0 (listMean excursions / (5/100)))

/-- The absolute value of the claim's signed excursion at bar `idx`. -/
def amendedItem (zone : KeyLevelsDetector.Zone) (df : List Bar) (idx : ℕ) : Option ℚ :=
  (claimedItem zone df idx).map (|·|)

/-- The baseline reaction score as amended: identical to the claim's formula
except that each per-bar excursion enters the average in absolute value, and
only touching bars followed by at least one more bar qualify. -/
def reactionScoreAmended (zone : KeyLevelsDetector.Zone) (df : List Bar) : ℚ :=
  let excursions := (List.range df.length).filterMap (amendedItem zone df)
  if excursions = [] then 0 else min 1 (max 0 (listMean excursions / (5/100)))

/-- Bar `i` fully engulfs the zone (the decisive-break test of the
broken-level filter): `low < price_low AND high > price_high`. -/
def BreaksAt (df : List Bar) (z : InstitutionalKeyLevels.Candidate) (i : ℕ) : Prop :=
  i < df.length ∧ (df.getD i default).low < z.price_low ∧
    z.price_high < (df.getD i default).high

instance (df : List Bar) (z : InstitutionalKeyLevels.Candidate) (i : ℕ) :
    Decidable (BreaksAt df z i) := by
  unfold BreaksAt; infer_instance

/-- The keep condition of the broken-level filter exactly as the claim words
it: either no bar of the series fully engulfs the zone, or — `i` being the
first decisive break — at least one of the subsequent 20 bars (those that
exist) closes within the zone's own width of the zone midpoint. -/
def KeepClaimed (df : List Bar) (z : InstitutionalKeyLevels.Candidate) : Prop :=
  (∀ i < df.length, ¬ BreaksAt df z i) ∨
  (∃ i < df.length, BreaksAt df z i ∧ (∀ k < i, ¬ BreaksAt df z k) ∧
    ∃ j < df.length, i + 1 ≤ j ∧ j ≤ i + 20 ∧
      |(df.getD j default).close - (z.price_low + z.price_high) / 2| <
        z.price_high - z.price_low)

instance (df : List Bar) (z : InstitutionalKeyLevels.Candidate) :
    Decidable (KeepClaimed df z) := by
  unfold KeepClaimed; infer_instance

/-- The keep condition as amended to match the code: the first break must
leave more than 10 bars after it (`i + 10 < n`), and only the 19 bars at
indices `i+1 … min(i+20, n) - 1` are checked for a respecting close. -/
def KeepAmended (df : List Bar) (z : InstitutionalKeyLevels.Candidate) : Prop :=
  (∀ i < df.length, ¬ BreaksAt df z i) ∨
  (∃ i < df.length, BreaksAt df z i ∧ (∀ k < i, ¬ BreaksAt df z k) ∧
    i + 10 < df.length ∧
    ∃ j < min (i + 20) df.length, i + 1 ≤ j ∧
      |(df.getD j default).close - (z.price_low + z.price_high) / 2| <
        z.price_high - z.price_low)

instance (df : List Bar) (z : InstitutionalKeyLevels.Candidate) :
    Decidable (KeepAmended df z) := by
  unfold KeepAmended; infer_instance

/-- The institutional confidence exactly as the claim words it: capped
component sum, multiplied by the timeframe weight, clamped to `[0,100]` (no
rounding). -/
def confidenceClaimed (df : List Bar) (timeframe : String)
    (z : InstitutionalKeyLevels.MergedZone) : ℚ :=
  let latest := ((df.getLast?).getD default).time
  let days : ℤ := Int.fdiv (latest - z.last_touch_time) 86400
  let s :=
    min ((z.touches : ℚ) * 5) 30 +
    (match z.reaction_strength with | some rs => min (rs * 5) 25 | none => 0) +
    (match z.avg_volume with
     | some v => min (v / listMean (df.map Bar.volume) * 100 / 5) 20
     | none => 0) +
    max (15 - (days : ℚ) / 10) 0 +
    (if 1 < z.sources.length then 10 else 0)
  min (max (s * InstitutionalKeyLevels.get_timeframe_weight timeframe) 0) 100

/-! ### Concrete inputs used by counterexamples and witnesses -/

/-- A single valid bar with `high - low = 10`, for the ATR-fallback claims. -/
def c3Bar : Bar := ⟨0, 5, 10, 0, 5, 1⟩

/-- Support zone `[10, 11]` (center 10.5) for the reaction-score claims. -/
def c4Zone : KeyLevelsDetector.Zone :=
  { id := ⟨"support", 21/2, 1⟩, type := "support", price_low := 10, price_high := 11
    touches := 1, last_touch_time := 0, touch_times := [0]
    raw_strength := 0, strength := 0 }

/-- Two bars: the first touches the zone `[10, 11]`, the next bar stays below
the zone center, so the signed excursion is negative while its magnitude is
large. -/
def c4Series : List Bar :=
  [⟨0, 21/2, 53/5, 21/2, 21/2, 1⟩,
   ⟨1, 197/20, 99/10, 49/5, 197/20, 1⟩]

/-- Candidate zone `[10, 11]` for the broken-level-filter claims. -/
def c5Zone : InstitutionalKeyLevels.Candidate :=
  { price_low := 10, price_high := 11, touches := 3, last_touch_time := 0
    source := "volume_node" }

/-- Twelve bars; bar 5 fully engulfs the zone `[10, 11]` and bar 6 closes on
the zone midpoint, but fewer than 10 bars follow the break. -/
def c5Series : List Bar :=
  (List.range 5).map (fun i => ⟨i, 21/2, 54/5, 51/5, 21/2, 1⟩) ++
  [⟨5, 10, 12, 9, 21/2, 1⟩] ++
  (List.range' 6 6).map (fun i => ⟨i, 21/2, 54/5, 51/5, 21/2, 1⟩)

/-- A merged zone with one touch, no reaction/volume data and a single
source, last touched 123 days before the series end. -/
def c8Zone : InstitutionalKeyLevels.MergedZone :=
  { price_low := 10, price_high := 11, touches := 1, last_touch_time := 0
    sources := ["rejection_high"], reaction_strength := none, avg_volume := none }

/-- Two bars whose last timestamp is 123 days after epoch, so the zone above
scores `5 + 2.7 = 7.7` points before the timeframe weight. -/
def c8Series : List Bar :=
  [⟨0, 21/2, 54/5, 51/5, 21/2, 1⟩, ⟨123 * 86400, 21/2, 54/5, 51/5, 21/2, 1⟩]

/-- Twenty-one flat bars except for a spike bar at index 10, which is both the
unique pivot high and the unique pivot low for `pivot_window = 3`. -/
def c10Series : List Bar :=
  (List.range 21).map fun i =>
    if i = 10 then ⟨i, 19/2, 12, 8, 19/2, 1⟩ else ⟨i, 19/2, 10, 9, 19/2, 1⟩

/-- Sixty identical narrow valid bars with equal volume: every bar clears the
volume quantile, so the institutional engine emits one high-touch volume-node
zone. -/
def c9Series : List Bar :=
  (List.range 60).map fun i => ⟨i, 101/10, 51/5, 10, 101/10, 5⟩

/-- An institutional configuration (defaults except a high reaction cutoff)
under which `c9Series` yields exactly one zone. -/
def c9Config : InstitutionalKeyLevels.Config := { min_reaction_atr := 5 }

/-- The zone list the baseline engine computes on `c10Series`. -/
def c10Zones : List KeyLevelsDetector.Zone :=
  (KeyLevelsDetector.detect_zones {} (fun _ => 0) c10Series).toOption.getD []

/-- The zone list the institutional engine computes on `c9Series`. -/
def c9Zones : List InstitutionalKeyLevels.IKeyZone :=
  InstitutionalKeyLevels.detect_levels c9Config c9Series "1d"

/-! ## Helper lemmas -/

theorem ValidBar.low_le_high {b : Bar} (h : ValidBar b) : b.low ≤ b.high :=
  le_trans h.1 (le_trans (min_le_left _ _) (le_trans (le_max_left _ _) h.2.1))

theorem trueRangeGo_length (prev : Bar) (bs : List Bar) :
    (trueRangeGo prev bs).length = bs.length := by
  induction bs generalizing prev with
  | nil => rfl
  | cons b bs ih => simp [trueRangeGo, ih]

theorem trueRange_length (df : List Bar) : (trueRange df).length = df.length := by
  cases df with
  | nil => rfl
  | cons b bs => simp [trueRange, trueRangeGo_length]

theorem listMean_nonneg {xs : List ℚ} (h : ∀ x ∈ xs, 0 ≤ x) : 0 ≤ listMean xs :=
  div_nonneg (List.sum_nonneg h) (Nat.cast_nonneg _)

theorem headD_mem {α : Type} {l : List α} (d : α) (h : l ≠ []) : l.headD d ∈ l := by
  cases l with
  | nil => exact absurd rfl h
  | cons x xs => simp

theorem sum_map_sub (f g : Bar → ℚ) (l : List Bar) :
    (l.map fun b => f b - g b).sum = (l.map f).sum - (l.map g).sum := by
  induction l with
  | nil => simp
  | cons b l ih =>
    simp only [List.map_cons, List.sum_cons, ih]
    ring

theorem listMean_map_sub (f g : Bar → ℚ) (l : List Bar) :
    listMean (l.map fun b => f b - g b) = listMean (l.map f) - listMean (l.map g) := by
  unfold listMean
  rw [sum_map_sub, List.length_map, List.length_map, List.length_map, sub_div]

theorem trueRangeGo_nonneg (prev : Bar) (bs : List Bar) (hv : ∀ b ∈ bs, ValidBar b) :
    ∀ x ∈ trueRangeGo prev bs, 0 ≤ x := by
  induction bs generalizing prev with
  | nil => simp [trueRangeGo]
  | cons b bs ih =>
    intro x hx
    simp only [trueRangeGo, List.mem_cons] at hx
    rcases hx with rfl | hx
    · exact le_trans (sub_nonneg.mpr (ValidBar.low_le_high (hv b (by simp))))
        (le_max_left _ _)
    · exact ih b (fun c hc => hv c (by simp [hc])) x hx

theorem trueRange_nonneg {df : List Bar} (hv : ValidSeries df) :
    ∀ x ∈ trueRange df, 0 ≤ x := by
  cases df with
  | nil => simp [trueRange]
  | cons b bs =>
    intro x hx
    simp only [trueRange, List.mem_cons] at hx
    rcases hx with rfl | hx
    · exact sub_nonneg.mpr (ValidBar.low_le_high (hv b (by simp)))
    · exact trueRangeGo_nonneg b bs (fun c hc => hv c (by simp [hc])) x hx

theorem rollingMeanLast_nonneg {xs : List ℚ} (h : ∀ x ∈ xs, 0 ≤ x) (period : ℕ) :
    ∀ a, rollingMeanLast xs period = some a → 0 ≤ a := by
  intro a ha
  unfold rollingMeanLast at ha
  split at ha
  · cases ha
  · cases ha
    exact listMean_nonneg fun x hx => h x (List.drop_subset _ _ hx)

theorem calculate_atr_nonneg (cfg : KeyLevelsDetector.Config) {df : List Bar}
    (hv : ValidSeries df) : 0 ≤ KeyLevelsDetector.calculate_atr cfg df := by
  unfold KeyLevelsDetector.calculate_atr
  split
  next a ha => exact rollingMeanLast_nonneg (trueRange_nonneg hv) _ a ha
  next =>
    refine listMean_nonneg fun x hx => ?_
    obtain ⟨b, hb, rfl⟩ := List.mem_map.mp hx
    exact sub_nonneg.mpr (ValidBar.low_le_high (hv b hb))

theorem calculate_atr_nonneg_inst {df : List Bar} (period : ℕ)
    (hv : ValidSeries df) : 0 ≤ InstitutionalKeyLevels.calculate_atr df period := by
  unfold InstitutionalKeyLevels.calculate_atr
  split
  next a ha => exact rollingMeanLast_nonneg (trueRange_nonneg hv) _ a ha
  next =>
    have h : 0 ≤ listMean (df.map Bar.high) - listMean (df.map Bar.low) := by
      rw [← listMean_map_sub]
      refine listMean_nonneg fun x hx => ?_
      obtain ⟨b, hb, rfl⟩ := List.mem_map.mp hx
      exact sub_nonneg.mpr (ValidBar.low_le_high (hv b hb))
    positivity

/-! ## Claim theorems -/

/-- C6: `KeyLevelsDetector.detect_zones` raises the insufficient-data error
exactly when the series length is below `2·pivot_window + atr_period`: it
returns an error iff `len < 2·w + a` (so a series of length `2·w + a - 1`
errors), and returns a zone list iff `2·w + a ≤ len`. -/
theorem detect_zones_insufficient_data_iff (cfg : KeyLevelsDetector.Config)
    (expQ : ℚ → ℚ) (df : List Bar) :
    ((∃ e, KeyLevelsDetector.detect_zones cfg expQ df = Except.error e) ↔
      df.length < 2 * cfg.pivot_window + cfg.atr_period) ∧
    ((∃ zs, KeyLevelsDetector.detect_zones cfg expQ df = Except.ok zs) ↔
      2 * cfg.pivot_window + cfg.atr_period ≤ df.length) := by
  by_cases h : df.length < cfg.pivot_window * 2 + cfg.atr_period
  · rw [KeyLevelsDetector.detect_zones, if_pos h]
    refine ⟨⟨fun _ => by omega, fun _ => ⟨_, rfl⟩⟩, ⟨fun hz => ?_, fun hle => by omega⟩⟩
    obtain ⟨zs, hzs⟩ := hz
    cases hzs
  · rw [KeyLevelsDetector.detect_zones, if_neg h]
    refine ⟨⟨fun he => ?_, fun hlt => by omega⟩, ⟨fun _ => by omega, fun _ => ⟨_, rfl⟩⟩⟩
    obtain ⟨e, he⟩ := he
    cases he

/-- C1 counterexample: `InstitutionalKeyLevels.detect_levels` does return an
empty zone list on too-short input — both on the empty series and on a
non-empty 2-bar series — rather than failing. -/
theorem detect_levels_empty_on_short_series :
    InstitutionalKeyLevels.detect_levels routes.strictDetector [] "1d" = [] ∧
    InstitutionalKeyLevels.detect_levels routes.strictDetector c4Series "1d" = [] :=
  ⟨rfl, rfl⟩

/-- C1 (amended): the baseline detector raises an insufficient-data error on a
too-short series, but the institutional `detect_levels` does not fail: it
silently returns the empty zone list whenever the series has fewer than 50
bars. -/
theorem insufficient_data_behaviour :
    (∀ (cfg : InstitutionalKeyLevels.Config) (df : List Bar) (tf : String),
       df.length < 50 → InstitutionalKeyLevels.detect_levels cfg df tf = []) ∧
    (∀ (cfg : KeyLevelsDetector.Config) (expQ : ℚ → ℚ) (df : List Bar),
       df.length < cfg.pivot_window * 2 + cfg.atr_period →
       ∃ e, KeyLevelsDetector.detect_zones cfg expQ df = Except.error e) := by
  constructor
  · intro cfg df tf h
    rw [InstitutionalKeyLevels.detect_levels, if_pos h]
  · intro cfg expQ df h
    exact ⟨_, by rw [KeyLevelsDetector.detect_zones, if_pos h]⟩

/-- Witness for C1 at concrete inputs: the 2-bar series `c4Series`. -/
theorem insufficient_data_behaviour_witness :
    InstitutionalKeyLevels.detect_levels c9Config c4Series "4h" = [] ∧
    ∃ e, KeyLevelsDetector.detect_zones {} (fun _ => 0) c4Series = Except.error e :=
  ⟨insufficient_data_behaviour.1 c9Config c4Series "4h" (by decide),
   insufficient_data_behaviour.2 {} (fun _ => 0) c4Series (by decide)⟩

/-- C3 counterexample: on a one-bar valid series (shorter than the lookback
14), the institutional `_calculate_atr` does not return the mean high-low
range: it returns `0.2` where the mean range is `10`. -/
theorem institutional_atr_fallback_not_mean_range :
    InstitutionalKeyLevels.calculate_atr [c3Bar] 14 = 1/5 ∧
    listMean ([c3Bar].map fun b => b.high - b.low) = 10 ∧
    InstitutionalKeyLevels.calculate_atr [c3Bar] 14 ≠
      listMean ([c3Bar].map fun b => b.high - b.low) := by
  refine ⟨by with_unfolding_all rfl, by with_unfolding_all rfl, ?_⟩
  intro h
  rw [show InstitutionalKeyLevels.calculate_atr [c3Bar] 14 = 1/5 by with_unfolding_all rfl,
      show listMean ([c3Bar].map fun b => b.high - b.low) = 10 by with_unfolding_all rfl] at h
  norm_num at h

/-- C3 (amended): on a non-empty series shorter than the lookback, the
baseline `_calculate_atr` returns the mean high-low range, while the
institutional `_calculate_atr` returns 2% of it
(`(mean(high) - mean(low)) * 0.02`); for a valid series both fallbacks are
non-negative (and, being rationals, finite). -/
theorem atr_fallback_short_series (cfg : KeyLevelsDetector.Config)
    (df : List Bar) (period : ℕ) (h0 : df ≠ [])
    (h1 : df.length < cfg.atr_period) (h2 : df.length < period)
    (hv : ValidSeries df) :
    KeyLevelsDetector.calculate_atr cfg df =
      listMean (df.map fun b => b.high - b.low) ∧
    InstitutionalKeyLevels.calculate_atr df period =
      listMean (df.map fun b => b.high - b.low) * (2/100) ∧
    0 ≤ KeyLevelsDetector.calculate_atr cfg df ∧
    0 ≤ InstitutionalKeyLevels.calculate_atr df period := by
  have hlen : (trueRange df).length < cfg.atr_period := by
    rw [trueRange_length]; exact h1
  have hlen' : (trueRange df).length < period := by
    rw [trueRange_length]; exact h2
  have hb : KeyLevelsDetector.calculate_atr cfg df =
      listMean (df.map fun b => b.high - b.low) := by
    unfold KeyLevelsDetector.calculate_atr rollingMeanLast
    rw [if_pos hlen]
  have hi : InstitutionalKeyLevels.calculate_atr df period =
      listMean (df.map fun b => b.high - b.low) * (2/100) := by
    unfold InstitutionalKeyLevels.calculate_atr rollingMeanLast
    rw [if_pos hlen', listMean_map_sub]
  exact ⟨hb, hi, calculate_atr_nonneg cfg hv, calculate_atr_nonneg_inst period hv⟩

/-- Witness for C3 at the concrete one-bar series `[c3Bar]`. -/
theorem atr_fallback_short_series_witness :
    KeyLevelsDetector.calculate_atr {} [c3Bar] =
      listMean ([c3Bar].map fun b => b.high - b.low) ∧
    InstitutionalKeyLevels.calculate_atr [c3Bar] 14 =
      listMean ([c3Bar].map fun b => b.high - b.low) * (2/100) ∧
    0 ≤ KeyLevelsDetector.calculate_atr {} [c3Bar] ∧
    0 ≤ InstitutionalKeyLevels.calculate_atr [c3Bar] 14 :=
  atr_fallback_short_series {} [c3Bar] 14 (by decide) (by decide) (by decide)
    (by decide)

/-- C2: two cold-cache `GET /api/keylevels` requests that differ only in
`pivot_window` and/or `max_zones` produce identical responses (zones and
`algorithm_params` echo included); those parameters enter only the cache key,
since the detector is always the fixed strict-mode configuration. -/
theorem keylevels_route_params_only_affect_cache_key
    (ticker tf : String) (lookback pw pw' mz mz' : Option ℕ) (df : List Bar) :
    (routes.get_key_levels ticker tf lookback pw mz df).2 =
      (routes.get_key_levels ticker tf lookback pw' mz' df).2 ∧
    (routes.get_key_levels ticker tf lookback pw mz df).2.zones =
      InstitutionalKeyLevels.detect_levels
        { min_touches := 3, min_reaction_atr := 2, volume_threshold_percentile := 75,
          max_levels := 5, merge_tolerance_atr := 8/10,
          broken_level_invalidation := true } df tf ∧
    (routes.get_key_levels ticker tf lookback pw mz df).2.algorithm_params =
      { min_touches := 3, min_reaction_atr := 2, volume_threshold_percentile := 75,
        max_levels := 5, merge_tolerance_atr := 8/10,
        broken_level_invalidation := true,
        algorithm := "institutional_key_levels_v1" } :=
  ⟨rfl, rfl, rfl⟩

/-! ## Baseline pipeline decomposition lemmas -/

theorem clusterGo_mem_ne_nil (tol : ℚ) (prev : ℤ × ℚ) (cur ps : List (ℤ × ℚ))
    (hcur : cur ≠ []) : ∀ c ∈ KeyLevelsDetector.clusterGo tol prev cur ps, c ≠ [] := by
  induction ps generalizing prev cur with
  | nil =>
    intro c hc
    simp only [KeyLevelsDetector.clusterGo, List.mem_singleton] at hc
    subst hc; exact hcur
  | cons q qs ih =>
    intro c hc
    simp only [KeyLevelsDetector.clusterGo] at hc
    split at hc
    · exact ih q (cur ++ [q]) (by simp) c hc
    · rcases List.mem_cons.mp hc with rfl | hc
      · exact hcur
      · exact ih q [q] (by simp) c hc

theorem splitClusters_mem_ne_nil (tol : ℚ) (ps : List (ℤ × ℚ)) :
    ∀ c ∈ KeyLevelsDetector.splitClusters tol ps, c ≠ [] := by
  cases ps with
  | nil => simp [KeyLevelsDetector.splitClusters]
  | cons p ps => exact clusterGo_mem_ne_nil tol p [p] ps (by simp)

theorem mem_cluster_levels {z : KeyLevelsDetector.Zone} {pivots : List (ℤ × ℚ)}
    {tol : ℚ} {t : String} (h : z ∈ KeyLevelsDetector.cluster_levels pivots tol t) :
    ∃ cluster, cluster ≠ [] ∧ z = KeyLevelsDetector.create_zone cluster tol t := by
  unfold KeyLevelsDetector.cluster_levels at h
  obtain ⟨c, hc, rfl⟩ := List.mem_map.mp h
  exact ⟨c, splitClusters_mem_ne_nil _ _ c hc, rfl⟩

theorem mem_score_zones_baseline {expQ : ℚ → ℚ} {zs : List KeyLevelsDetector.Zone}
    {df : List Bar} {z : KeyLevelsDetector.Zone}
    (h : z ∈ KeyLevelsDetector.score_zones expQ zs df) :
    ∃ z' ∈ zs, z = KeyLevelsDetector.scoreZone expQ df
      ((zs.map KeyLevelsDetector.Zone.touches).foldl max 0) z' := by
  unfold KeyLevelsDetector.score_zones at h
  split at h
  · cases h
  · obtain ⟨z', hz', rfl⟩ := List.mem_map.mp h
    exact ⟨z', hz', rfl⟩

theorem detect_zones_ok_mem {cfg : KeyLevelsDetector.Config} {expQ : ℚ → ℚ}
    {df : List Bar} {zs : List KeyLevelsDetector.Zone}
    (h : KeyLevelsDetector.detect_zones cfg expQ df = Except.ok zs) :
    ∀ z ∈ zs, ∃ t cluster M,
      (t = "resistance" ∨ t = "support") ∧ cluster ≠ [] ∧
      z = KeyLevelsDetector.scoreZone expQ df M
        (KeyLevelsDetector.create_zone cluster
          (KeyLevelsDetector.calculate_atr cfg df * cfg.atr_multiplier) t) := by
  intro z hz
  rw [KeyLevelsDetector.detect_zones] at h
  split at h
  · cases h
  · cases h
    have hz1 := List.take_subset _ _ hz
    have hz2 := (List.mem_insertionSort _).mp hz1
    obtain ⟨z', hz', rfl⟩ := mem_score_zones_baseline hz2
    rcases List.mem_append.mp hz' with hmem | hmem
    · obtain ⟨c, hc, rfl⟩ := mem_cluster_levels hmem
      exact ⟨"resistance", c, _, Or.inl rfl, hc, rfl⟩
    · obtain ⟨c, hc, rfl⟩ := mem_cluster_levels hmem
      exact ⟨"support", c, _, Or.inr rfl, hc, rfl⟩

/-- C10: every zone returned by the baseline `detect_zones` has type
`"support"` or `"resistance"`: the baseline engine never emits a `"pivot"` or
`"equilibrium"` zone and never runs the last-close classifier. -/
theorem baseline_zone_types (cfg : KeyLevelsDetector.Config) (expQ : ℚ → ℚ)
    (df : List Bar) (zs : List KeyLevelsDetector.Zone)
    (h : KeyLevelsDetector.detect_zones cfg expQ df = Except.ok zs) :
    ∀ z ∈ zs, z.type = "support" ∨ z.type = "resistance" := by
  intro z hz
  obtain ⟨t, c, M, ht, -, rfl⟩ := detect_zones_ok_mem h z hz
  rcases ht with rfl | rfl
  · exact Or.inr rfl
  · exact Or.inl rfl

/-- Witness for C10: the first zone computed on the 21-bar series
`c10Series`. -/
theorem baseline_zone_types_witness :
    (c10Zones.headD default).type = "support" ∨
    (c10Zones.headD default).type = "resistance" :=
  baseline_zone_types {} (fun _ => 0) c10Series c10Zones
    (by with_unfolding_all rfl) _
    (headD_mem default (by with_unfolding_all exact of_decide_eq_true rfl))

/-! ## Pivot lemmas (C7) -/

theorem getD_map_high (df : List Bar) (i : ℕ) :
    (df.map Bar.high).getD i 0 = (df.getD i default).high := by
  rw [List.getD_eq_getElem?_getD, List.getD_eq_getElem?_getD, List.getElem?_map]
  cases df[i]? <;> rfl

theorem getD_map_low (df : List Bar) (i : ℕ) :
    (df.map Bar.low).getD i 0 = (df.getD i default).low := by
  rw [List.getD_eq_getElem?_getD, List.getD_eq_getElem?_getD, List.getElem?_map]
  cases df[i]? <;> rfl

/-- C7: pivot detection demands strict inequality on both sides of the window
and never marks bars within `pivot_window` of either edge; consequently a
60-bar flat series (identical OHLC bars) yields no pivots and zero zones. -/
theorem pivot_strictness_and_flat_series :
    (∀ (cfg : KeyLevelsDetector.Config) (df : List Bar) (t : ℤ) (p : ℚ),
       (t, p) ∈ KeyLevelsDetector.find_pivot_highs cfg df →
       ∃ i, cfg.pivot_window ≤ i ∧ i + cfg.pivot_window < df.length ∧
         t = (df.getD i default).time ∧ p = (df.getD i default).high ∧
         ∀ j, 1 ≤ j → j ≤ cfg.pivot_window →
           (df.getD (i - j) default).high < p ∧ (df.getD (i + j) default).high < p) ∧
    (∀ (cfg : KeyLevelsDetector.Config) (df : List Bar) (t : ℤ) (p : ℚ),
       (t, p) ∈ KeyLevelsDetector.find_pivot_lows cfg df →
       ∃ i, cfg.pivot_window ≤ i ∧ i + cfg.pivot_window < df.length ∧
         t = (df.getD i default).time ∧ p = (df.getD i default).low ∧
         ∀ j, 1 ≤ j → j ≤ cfg.pivot_window →
           p < (df.getD (i - j) default).low ∧ p < (df.getD (i + j) default).low) ∧
    (∀ (b : Bar) (expQ : ℚ → ℚ),
       KeyLevelsDetector.detect_zones
         { pivot_window := 3, atr_period := 14, atr_multiplier := 3/10, max_zones := 6 }
         expQ (List.replicate 60 b) = Except.ok []) := by
  refine ⟨?_, ?_, ?_⟩
  · intro cfg df t p hmem
    unfold KeyLevelsDetector.find_pivot_highs at hmem
    obtain ⟨i, hi, hf⟩ := List.mem_filterMap.mp hmem
    rw [List.mem_range'_1] at hi
    split at hf
    case isTrue hpiv =>
      cases hf
      refine ⟨i, hi.1, by omega, rfl, (getD_map_high df i).symm ▸ rfl, ?_⟩
      intro j hj1 hjw
      have hjmem : j ∈ List.range' 1 cfg.pivot_window := by
        rw [List.mem_range'_1]; omega
      have := List.all_eq_true.mp hpiv j hjmem
      rw [Bool.and_eq_true, decide_eq_true_eq, decide_eq_true_eq] at this
      rw [← getD_map_high df (i - j), ← getD_map_high df (i + j)]
      exact this
    case isFalse => cases hf
  · intro cfg df t p hmem
    unfold KeyLevelsDetector.find_pivot_lows at hmem
    obtain ⟨i, hi, hf⟩ := List.mem_filterMap.mp hmem
    rw [List.mem_range'_1] at hi
    split at hf
    case isTrue hpiv =>
      cases hf
      refine ⟨i, hi.1, by omega, rfl, (getD_map_low df i).symm ▸ rfl, ?_⟩
      intro j hj1 hjw
      have hjmem : j ∈ List.range' 1 cfg.pivot_window := by
        rw [List.mem_range'_1]; omega
      have := List.all_eq_true.mp hpiv j hjmem
      rw [Bool.and_eq_true, decide_eq_true_eq, decide_eq_true_eq] at this
      rw [← getD_map_low df (i - j), ← getD_map_low df (i + j)]
      exact this
    case isFalse => cases hf
  · intro b expQ
    have hrep : ∀ (k : ℕ), k < 60 → ((List.replicate 60 b).map Bar.high).getD k 0 = b.high := by
      intro k hk
      rw [List.map_replicate, List.getD_eq_getElem _ _ (by simpa using hk),
        List.getElem_replicate]
    have hrepl : ∀ (k : ℕ), k < 60 → ((List.replicate 60 b).map Bar.low).getD k 0 = b.low := by
      intro k hk
      rw [List.map_replicate, List.getD_eq_getElem _ _ (by simpa using hk),
        List.getElem_replicate]
    have hph : KeyLevelsDetector.find_pivot_highs
        { pivot_window := 3, atr_period := 14, atr_multiplier := 3/10, max_zones := 6 }
        (List.replicate 60 b) = [] := by
      unfold KeyLevelsDetector.find_pivot_highs
      rw [List.filterMap_eq_nil_iff]
      intro i hi
      simp only [List.length_replicate] at hi
      rw [List.mem_range'_1] at hi
      rw [if_neg]
      rw [Bool.not_eq_true]
      apply List.all_eq_false.mpr
      refine ⟨1, by simp, ?_⟩
      rw [hrep (i - 1) (by omega), hrep i (by omega)]
      simp
    have hpl : KeyLevelsDetector.find_pivot_lows
        { pivot_window := 3, atr_period := 14, atr_multiplier := 3/10, max_zones := 6 }
        (List.replicate 60 b) = [] := by
      unfold KeyLevelsDetector.find_pivot_lows
      rw [List.filterMap_eq_nil_iff]
      intro i hi
      simp only [List.length_replicate] at hi
      rw [List.mem_range'_1] at hi
      rw [if_neg]
      rw [Bool.not_eq_true]
      apply List.all_eq_false.mpr
      refine ⟨1, by simp, ?_⟩
      rw [hrepl (i - 1) (by omega), hrepl i (by omega)]
      simp
    rw [KeyLevelsDetector.detect_zones]
    rw [if_neg (by simp)]
    simp only [hph, hpl]
    rfl

/-- Witness for C7: the spike bar of `c10Series` is a pivot high at index 10,
and a flat 60-bar series built from `c3Bar` yields zero zones. -/
theorem pivot_strictness_witness :
    (∃ i, ({} : KeyLevelsDetector.Config).pivot_window ≤ i ∧
       i + ({} : KeyLevelsDetector.Config).pivot_window < c10Series.length ∧
       (10 : ℤ) = (c10Series.getD i default).time ∧
       (12 : ℚ) = (c10Series.getD i default).high ∧
       ∀ j, 1 ≤ j → j ≤ ({} : KeyLevelsDetector.Config).pivot_window →
         (c10Series.getD (i - j) default).high < 12 ∧
         (c10Series.getD (i + j) default).high < 12) ∧
    KeyLevelsDetector.detect_zones
      { pivot_window := 3, atr_period := 14, atr_multiplier := 3/10, max_zones := 6 }
      (fun _ => 0) (List.replicate 60 c3Bar) = Except.ok [] :=
  ⟨pivot_strictness_and_flat_series.1 {} c10Series 10 12
    (by with_unfolding_all exact of_decide_eq_true rfl),
   pivot_strictness_and_flat_series.2.2 c3Bar (fun _ => 0)⟩

/-! ## Reaction-score lemmas (C4) -/

theorem reactionItem_eq_amendedItem (zone : KeyLevelsDetector.Zone) (df : List Bar)
    (idx : ℕ) :
    KeyLevelsDetector.reactionItem zone df idx = amendedItem zone df idx := by
  unfold KeyLevelsDetector.reactionItem amendedItem claimedItem
  by_cases ht : (zone.price_low ≤ (df.getD idx default).low ∧
      (df.getD idx default).low ≤ zone.price_high) ∨
      (zone.price_low ≤ (df.getD idx default).high ∧
      (df.getD idx default).high ≤ zone.price_high)
  · by_cases hl : idx + 1 < df.length
    · rw [if_pos ht, if_pos (show 0 < min 5 (df.length - idx - 1) from by omega),
        if_pos ⟨ht, hl⟩]
      rfl
    · rw [if_pos ht, if_neg (show ¬ 0 < min 5 (df.length - idx - 1) from by omega),
        if_neg (fun hc => hl hc.2)]
      rfl
  · rw [if_neg ht, if_neg (fun hc => ht hc.1)]
    rfl

theorem amendedItem_nonneg {zone : KeyLevelsDetector.Zone} {df : List Bar} {idx : ℕ}
    {x : ℚ} (h : amendedItem zone df idx = some x) : 0 ≤ x := by
  unfold amendedItem at h
  cases hc : claimedItem zone df idx with
  | none => rw [hc] at h; cases h
  | some y =>
    rw [hc] at h
    injection h with h2
    exact h2 ▸ abs_nonneg y

/-- C4 counterexample: on the two-bar series `c4Series` the code's reaction
score of the support zone `c4Zone` is 1, while the claim's signed formula
gives 0 (the only excursion is negative, which the code absolute-values). -/
theorem reaction_score_signed_spec_mismatch :
    KeyLevelsDetector.calculate_reaction_strength c4Zone c4Series = 1 ∧
    reactionScoreClaimed c4Zone c4Series = 0 ∧
    KeyLevelsDetector.calculate_reaction_strength c4Zone c4Series ≠
      reactionScoreClaimed c4Zone c4Series := by
  have h1 : KeyLevelsDetector.calculate_reaction_strength c4Zone c4Series = 1 := by
    with_unfolding_all rfl
  have h2 : reactionScoreClaimed c4Zone c4Series = 0 := by
    with_unfolding_all rfl
  refine ⟨h1, h2, ?_⟩
  rw [h1, h2]
  norm_num

/-- C4 (amended): the baseline reaction score equals the claim's formula with
each per-bar excursion taken in absolute value: over every bar whose high or
low lies inside the zone band and which is followed by at least one bar, the
magnitude of the (up to 5-bar) look-ahead excursion relative to the
zone-center price, averaged, divided by 0.05 and clamped to `[0,1]`; zones
with no qualifying bar score 0. -/
theorem reaction_strength_eq_amended_spec (zone : KeyLevelsDetector.Zone)
    (df : List Bar) :
    KeyLevelsDetector.calculate_reaction_strength zone df =
      reactionScoreAmended zone df := by
  unfold KeyLevelsDetector.calculate_reaction_strength reactionScoreAmended
  rw [List.filterMap_congr (fun idx _ => reactionItem_eq_amendedItem zone df idx)]
  by_cases hL : (List.range df.length).filterMap (amendedItem zone df) = []
  · rw [hL]
    simp
  · rw [if_pos hL, if_neg hL]
    have hnn : 0 ≤ listMean ((List.range df.length).filterMap (amendedItem zone df)) /
        (5/100) := by
      apply div_nonneg _ (by norm_num)
      refine listMean_nonneg fun x hx => ?_
      obtain ⟨idx, -, hidx⟩ := List.mem_filterMap.mp hx
      exact amendedItem_nonneg hidx
    rw [max_eq_right hnn]

/-! ## Broken-level filter lemmas (C5) -/

theorem keepLevel_iff (df : List Bar) (z : InstitutionalKeyLevels.Candidate) :
    InstitutionalKeyLevels.keepLevel df z = true ↔ KeepAmended df z := by
  cases hfind : df.findIdx?
      (fun b => decide (b.low < z.price_low) && decide (z.price_high < b.high)) with
  | none =>
    rw [List.findIdx?_eq_none_iff] at hfind
    have hno : ∀ i < df.length, ¬ BreaksAt df z i := by
      intro i hi hb
      obtain ⟨-, h1, h2⟩ := hb
      have hp := hfind (df.getD i default)
        (by rw [List.getD_eq_getElem _ _ hi]; exact List.getElem_mem _)
      rw [Bool.and_eq_false_iff, decide_eq_false_iff_not, decide_eq_false_iff_not] at hp
      rcases hp with hp | hp
      · exact hp h1
      · exact hp h2
    exact ⟨fun _ => Or.inl hno, fun _ => by
      unfold InstitutionalKeyLevels.keepLevel
      rw [List.findIdx?_eq_none_iff.mpr hfind]⟩
  | some i =>
    have hL : InstitutionalKeyLevels.keepLevel df z =
        (decide (i + 10 < df.length) &&
          (List.range' (i + 1) (min (i + 20) df.length - (i + 1))).any fun j =>
            decide (|(df.getD j default).close - (z.price_low + z.price_high) / 2| <
              z.price_high - z.price_low)) := by
      unfold InstitutionalKeyLevels.keepLevel
      rw [hfind]
    rw [List.findIdx?_eq_some_iff_getElem] at hfind
    obtain ⟨hilen, hpi, hprev⟩ := hfind
    rw [Bool.and_eq_true, decide_eq_true_eq, decide_eq_true_eq] at hpi
    have hbreak : BreaksAt df z i := by
      refine ⟨hilen, ?_, ?_⟩ <;> rw [List.getD_eq_getElem _ _ hilen]
      · exact hpi.1
      · exact hpi.2
    have hfirst : ∀ k, k < i → ¬ BreaksAt df z k := by
      intro k hk hb
      obtain ⟨hklen, h1, h2⟩ := hb
      have := hprev k hk
      rw [Bool.and_eq_true, decide_eq_true_eq, decide_eq_true_eq] at this
      rw [List.getD_eq_getElem _ _ hklen] at h1 h2
      exact this ⟨h1, h2⟩
    rw [hL]
    unfold KeepAmended
    constructor
    · intro hT
      rw [Bool.and_eq_true] at hT
      obtain ⟨h10, hany⟩ := hT
      have h10' : i + 10 < df.length := of_decide_eq_true h10
      right
      refine ⟨i, hilen, hbreak, hfirst, h10', ?_⟩
      rw [List.any_eq_true] at hany
      obtain ⟨j, hjmem, hj⟩ := hany
      rw [List.mem_range'_1] at hjmem
      exact ⟨j, by omega, by omega, of_decide_eq_true hj⟩
    · intro hR
      rcases hR with hno | hex
      · exact absurd hbreak (hno i hilen)
      · obtain ⟨i', hi'len, hb', hfirst', h10', j, hjlt, hjge, hjclose⟩ := hex
        have hii : i' = i := by
          rcases lt_trichotomy i' i with h | h | h
          · exact absurd hb' (hfirst i' h)
          · exact h
          · exact absurd hbreak (hfirst' i h)
        subst hii
        rw [Bool.and_eq_true]
        refine ⟨decide_eq_true h10', ?_⟩
        rw [List.any_eq_true]
        refine ⟨j, ?_, decide_eq_true hjclose⟩
        rw [List.mem_range'_1]
        omega

/-- C5 counterexample: on `c5Series` the zone `c5Zone` is dropped by the
code's filter although the claim's keep condition holds (its first break at
index 5 is respected at bar 6, but fewer than 10 bars follow the break, so
the code never looks). -/
theorem broken_level_filter_claim_mismatch :
    InstitutionalKeyLevels.remove_broken_levels [c5Zone] c5Series = [] ∧
    KeepClaimed c5Series c5Zone := by
  constructor
  · with_unfolding_all rfl
  · with_unfolding_all exact of_decide_eq_true rfl

/-- C5 (amended): the broken-level filter keeps a candidate zone iff either no
bar of the series fully engulfs it, or its first decisive break at index `i`
has more than 10 bars after it (`i + 10 < n`) and at least one of the 19 bars
at indices `i+1 … min(i+20, n) - 1` closes strictly within the zone's width
of the zone midpoint; in particular a zone whose first break falls in the
last 10 bars is always dropped. -/
theorem remove_broken_levels_iff_keep_amended (df : List Bar)
    (zones : List InstitutionalKeyLevels.Candidate)
    (z : InstitutionalKeyLevels.Candidate) :
    z ∈ InstitutionalKeyLevels.remove_broken_levels zones df ↔
      z ∈ zones ∧ KeepAmended df z := by
  unfold InstitutionalKeyLevels.remove_broken_levels
  rw [List.mem_filter, keepLevel_iff]

/-! ## Institutional scoring lemmas (C8) -/

theorem get_timeframe_weight_pos (tf : String) :
    0 < InstitutionalKeyLevels.get_timeframe_weight tf := by
  unfold InstitutionalKeyLevels.get_timeframe_weight
  split_ifs <;> norm_num

theorem rawScore_nonneg (df : List Bar) (z : InstitutionalKeyLevels.MergedZone)
    (hrs : ∀ r, z.reaction_strength = some r → 0 ≤ r)
    (hav : ∀ v, z.avg_volume = some v → 0 ≤ v)
    (hvol : ∀ b ∈ df, 0 ≤ b.volume) :
    0 ≤ InstitutionalKeyLevels.rawScore df z := by
  unfold InstitutionalKeyLevels.rawScore
  have h1 : (0:ℚ) ≤ min ((z.touches : ℚ) * 5) 30 :=
    le_min (by positivity) (by norm_num)
  have h2 : (0:ℚ) ≤ match z.reaction_strength with
      | some rs => min (rs * 5) 25
      | none => 0 := by
    cases hr : z.reaction_strength with
    | none => exact le_refl 0
    | some r => exact le_min (by have := hrs r hr; positivity) (by norm_num)
  have hm : 0 ≤ listMean (df.map Bar.volume) := by
    refine listMean_nonneg fun x hx => ?_
    obtain ⟨b, hb, rfl⟩ := List.mem_map.mp hx
    exact hvol b hb
  have h3 : (0:ℚ) ≤ match z.avg_volume with
      | some v => min (v / listMean (df.map Bar.volume) * 100 / 5) 20
      | none => 0 := by
    cases ha : z.avg_volume with
    | none => exact le_refl 0
    | some v =>
      refine le_min ?_ (by norm_num)
      have hv := hav v ha
      have : 0 ≤ v / listMean (df.map Bar.volume) := div_nonneg hv hm
      positivity
  have h4 : (0:ℚ) ≤ max (15 - ((Int.fdiv (((df.getLast?).getD default).time -
      z.last_touch_time) 86400 : ℤ) : ℚ) / 10) 0 := le_max_right _ _
  have h5 : (0:ℚ) ≤ if 1 < z.sources.length then 10 else 0 := by
    split <;> norm_num
  exact add_nonneg (add_nonneg (add_nonneg (add_nonneg h1 h2) h3) h4) h5

theorem confidenceClaimed_eq_clamp (df : List Bar) (tf : String)
    (z : InstitutionalKeyLevels.MergedZone) :
    confidenceClaimed df tf z =
      min (max (InstitutionalKeyLevels.rawScore df z *
        InstitutionalKeyLevels.get_timeframe_weight tf) 0) 100 := rfl

/-- C8 counterexample: on the zone `c8Zone` (score `7.7`, unknown timeframe
weight `0.7`) the stored confidence is `round(5.39, 1) = 5.4`, not the
clamped product `5.39` the claim states, and the stored strength `0.0539` is
not `confidence/100 = 0.054`. -/
theorem confidence_rounding_claim_mismatch :
    InstitutionalKeyLevels.score_zones [c8Zone] c8Series 0
        (InstitutionalKeyLevels.get_timeframe_weight "1w") =
      [{ price_low := 10, price_high := 11, touches := 1, last_touch_time := 0,
         sources := ["rejection_high"], reaction_strength := none, avg_volume := none,
         confidence := 27/5, strength := 539/10000 }] ∧
    confidenceClaimed c8Series "1w" c8Zone = 539/100 ∧
    ¬ ((27/5 : ℚ) = 539/100 ∧ (539/10000 : ℚ) = (27/5) / 100) := by
  refine ⟨by with_unfolding_all rfl, by with_unfolding_all rfl, ?_⟩
  intro h
  have := h.1
  norm_num at this

/-- C8 (amended): each scored zone stores `confidence =
round(min(score·weight, 100), 1)` — the capped component sum scaled by the
timeframe weight, rounded to one decimal — and `strength` equal to the
unrounded `min(score·weight, 100) / 100`; the timeframe weights are
`1d→1.0, 4h→0.8, 1h→0.6, 15m→0.4, other→0.7`; and `detect_levels` returns at
most `max_levels` zones in descending (rounded) confidence order. -/
theorem score_zones_amended_spec (df : List Bar) (tf : String) (atr : ℚ)
    (zones : List InstitutionalKeyLevels.MergedZone)
    (hz : ∀ z ∈ zones, (∀ r, z.reaction_strength = some r → 0 ≤ r) ∧
      (∀ v, z.avg_volume = some v → 0 ≤ v))
    (hvol : ∀ b ∈ df, 0 ≤ b.volume) :
    (InstitutionalKeyLevels.score_zones zones df atr
        (InstitutionalKeyLevels.get_timeframe_weight tf) =
      zones.map fun z =>
        { price_low := z.price_low, price_high := z.price_high,
          touches := z.touches, last_touch_time := z.last_touch_time,
          sources := z.sources, reaction_strength := z.reaction_strength,
          avg_volume := z.avg_volume,
          confidence := round1 (confidenceClaimed df tf z),
          strength := confidenceClaimed df tf z / 100 }) ∧
    (InstitutionalKeyLevels.get_timeframe_weight "1d" = 1 ∧
     InstitutionalKeyLevels.get_timeframe_weight "4h" = 8/10 ∧
     InstitutionalKeyLevels.get_timeframe_weight "1h" = 6/10 ∧
     InstitutionalKeyLevels.get_timeframe_weight "15m" = 4/10 ∧
     ∀ s : String, s ≠ "1d" → s ≠ "4h" → s ≠ "1h" → s ≠ "15m" →
       InstitutionalKeyLevels.get_timeframe_weight s = 7/10) ∧
    (∀ (cfg : InstitutionalKeyLevels.Config) (df' : List Bar) (tf' : String),
       (InstitutionalKeyLevels.detect_levels cfg df' tf').Pairwise
         (fun a b => b.confidence ≤ a.confidence) ∧
       (InstitutionalKeyLevels.detect_levels cfg df' tf').length ≤ cfg.max_levels) := by
  refine ⟨?_, ⟨rfl, rfl, rfl, rfl, ?_⟩, ?_⟩
  · apply List.map_congr_left
    intro z hzm
    obtain ⟨hrs, hav⟩ := hz z hzm
    have hnn : 0 ≤ InstitutionalKeyLevels.rawScore df z *
        InstitutionalKeyLevels.get_timeframe_weight tf :=
      mul_nonneg (rawScore_nonneg df z hrs hav hvol)
        (le_of_lt (get_timeframe_weight_pos tf))
    unfold InstitutionalKeyLevels.scoreZoneI
    rw [confidenceClaimed_eq_clamp, max_eq_left hnn]
  · intro s h1 h2 h3 h4
    unfold InstitutionalKeyLevels.get_timeframe_weight
    rw [if_neg h1, if_neg h2, if_neg h3, if_neg h4]
  · intro cfg df' tf'
    rw [InstitutionalKeyLevels.detect_levels]
    split
    · simp
    · unfold InstitutionalKeyLevels.classify_zones
      constructor
      · rw [List.pairwise_map]
        haveI : IsTotal InstitutionalKeyLevels.ScoredZone
            (fun a b => b.confidence ≤ a.confidence) := ⟨fun a b => le_total _ _⟩
        haveI : IsTrans InstitutionalKeyLevels.ScoredZone
            (fun a b => b.confidence ≤ a.confidence) :=
          ⟨fun _ _ _ hab hbc => le_trans hbc hab⟩
        exact List.Pairwise.imp (fun h => h)
          ((List.sorted_insertionSort
            (fun a b : InstitutionalKeyLevels.ScoredZone =>
              b.confidence ≤ a.confidence) _).sublist (List.take_sublist _ _))
      · rw [List.length_map, List.length_take]
        exact le_trans (min_le_left _ _) (le_refl _)

/-- Witness for C8 at the concrete zone `c8Zone` on `c8Series` with the `1d`
weight. -/
theorem score_zones_amended_spec_witness :
    InstitutionalKeyLevels.score_zones [c8Zone] c8Series 0
        (InstitutionalKeyLevels.get_timeframe_weight "1d") =
      [{ price_low := 10, price_high := 11, touches := 1, last_touch_time := 0,
         sources := ["rejection_high"], reaction_strength := none, avg_volume := none,
         confidence := round1 (confidenceClaimed c8Series "1d" c8Zone),
         strength := confidenceClaimed c8Series "1d" c8Zone / 100 }] := by
  have hz : ∀ z ∈ [c8Zone], (∀ r, z.reaction_strength = some r → 0 ≤ r) ∧
      (∀ v, z.avg_volume = some v → 0 ≤ v) := by
    intro z hzm
    rw [List.mem_singleton] at hzm
    subst hzm
    exact ⟨fun r hr => (nomatch hr), fun v hv => (nomatch hv)⟩
  have hvol : ∀ b ∈ c8Series, 0 ≤ b.volume := by decide
  rw [(score_zones_amended_spec c8Series "1d" 0 [c8Zone] hz hvol).1]
  rfl

/-! ## Institutional pipeline invariants (C9) -/

theorem foldl_min_le (xs : List ℚ) (a : ℚ) :
    xs.foldl min a ≤ a ∧ ∀ x ∈ xs, xs.foldl min a ≤ x := by
  induction xs generalizing a with
  | nil => simp
  | cons y ys ih =>
    refine ⟨le_trans (ih (min a y)).1 (min_le_left a y), ?_⟩
    intro x hx
    rcases List.mem_cons.mp hx with rfl | hx
    · exact le_trans (ih (min a x)).1 (min_le_right a x)
    · exact (ih (min a y)).2 x hx

theorem le_foldl_max (xs : List ℚ) (a : ℚ) :
    a ≤ xs.foldl max a ∧ ∀ x ∈ xs, x ≤ xs.foldl max a := by
  induction xs generalizing a with
  | nil => simp
  | cons y ys ih =>
    refine ⟨le_trans (le_max_left a y) (ih (max a y)).1, ?_⟩
    intro x hx
    rcases List.mem_cons.mp hx with rfl | hx
    · exact le_trans (le_max_right a x) (ih (max a x)).1
    · exact (ih (max a y)).2 x hx

theorem qMinL_le_of_mem {x : ℚ} {xs : List ℚ} (h : x ∈ xs) : qMinL xs ≤ x := by
  cases xs with
  | nil => cases h
  | cons y ys =>
    rcases List.mem_cons.mp h with rfl | h
    · exact (foldl_min_le ys x).1
    · exact (foldl_min_le ys y).2 x h

theorem le_qMaxL_of_mem {x : ℚ} {xs : List ℚ} (h : x ∈ xs) : x ≤ qMaxL xs := by
  cases xs with
  | nil => cases h
  | cons y ys =>
    rcases List.mem_cons.mp h with rfl | h
    · exact (le_foldl_max ys x).1
    · exact (le_foldl_max ys y).2 x h

/-- The bar at a valid index is the head of the 10-bar look-ahead slice. -/
theorem getD_mem_drop_take {df : List Bar} {i : ℕ} (hi : i < df.length) (n : ℕ)
    (hn : 0 < n) : df.getD i default ∈ (df.drop i).take n := by
  rw [List.getD_eq_getElem _ _ hi]
  have hdrop : df.drop i = df[i] :: df.drop (i + 1) := List.drop_eq_getElem_cons hi
  rw [hdrop]
  cases n with
  | zero => omega
  | succ m => exact List.mem_cons_self _ _

theorem addToVClusters_wf (tol price vol : ℚ) (t : ℤ)
    (cs : List InstitutionalKeyLevels.VCluster) (hvol : 0 ≤ vol)
    (hcs : ∀ c ∈ cs, c.prices ≠ [] ∧ ∀ v ∈ c.volumes, 0 ≤ v) :
    ∀ c ∈ InstitutionalKeyLevels.addToVClusters tol price vol t cs,
      c.prices ≠ [] ∧ ∀ v ∈ c.volumes, 0 ≤ v := by
  induction cs with
  | nil =>
    intro c hc
    rw [InstitutionalKeyLevels.addToVClusters, List.mem_singleton] at hc
    subst hc
    refine ⟨by simp, ?_⟩
    intro v hv
    rw [List.mem_singleton] at hv
    subst hv
    exact hvol
  | cons c0 cs ih =>
    intro c hc
    rw [InstitutionalKeyLevels.addToVClusters] at hc
    split at hc
    · rcases List.mem_cons.mp hc with rfl | hc
      · obtain ⟨h0, h0v⟩ := hcs c0 (List.mem_cons_self _ _)
        refine ⟨by simp, ?_⟩
        intro v hv
        rcases List.mem_append.mp hv with hv | hv
        · exact h0v v hv
        · rw [List.mem_singleton] at hv
          subst hv
          exact hvol
      · exact hcs c (List.mem_cons_of_mem c0 hc)
    · rcases List.mem_cons.mp hc with rfl | hc
      · exact hcs c (List.mem_cons_self _ _)
      · exact ih (fun c' hc' => hcs c' (List.mem_cons_of_mem c0 hc')) c hc

theorem foldl_addToVClusters_wf (tol : ℚ) (bars : List Bar)
    (hb : ∀ b ∈ bars, 0 ≤ b.volume)
    (init : List InstitutionalKeyLevels.VCluster)
    (hinit : ∀ c ∈ init, c.prices ≠ [] ∧ ∀ v ∈ c.volumes, 0 ≤ v) :
    ∀ c ∈ bars.foldl (fun cs b =>
        InstitutionalKeyLevels.addToVClusters tol ((b.high + b.low) / 2)
          b.volume b.time cs) init,
      c.prices ≠ [] ∧ ∀ v ∈ c.volumes, 0 ≤ v := by
  induction bars generalizing init with
  | nil => exact hinit
  | cons b bs ih =>
    exact ih (fun b' hb' => hb b' (List.mem_cons_of_mem b hb'))
      (InstitutionalKeyLevels.addToVClusters tol ((b.high + b.low) / 2)
        b.volume b.time init)
      (addToVClusters_wf _ _ _ _ init (hb b (List.mem_cons_self _ _)) hinit)

theorem detect_volume_nodes_wf (cfg : InstitutionalKeyLevels.Config) (df : List Bar)
    (atr : ℚ) (hatr : 0 ≤ atr) (hv : ValidSeries df) :
    ∀ z ∈ InstitutionalKeyLevels.detect_volume_nodes cfg df atr, CandWF z := by
  intro z hz
  rw [InstitutionalKeyLevels.detect_volume_nodes] at hz
  split at hz
  · cases hz
  · obtain ⟨c, hc, hzq⟩ := List.mem_filterMap.mp hz
    have hcw := foldl_addToVClusters_wf (atr * cfg.merge_tolerance_atr) _
      (fun b hb => (hv b (List.mem_of_mem_filter hb)).2.2) [] (by simp) c hc
    split at hzq
    · cases hzq
      have h3 : (0:ℚ) ≤ atr * (3/10) := by positivity
      refine ⟨by simp only; linarith, ?_, ?_, ?_⟩
      · simp only
        rw [Nat.succ_le_iff, List.length_pos]
        exact hcw.1
      · intro r hr
        exact absurd hr (by simp)
      · intro v hvv
        simp only [Option.some.injEq] at hvv
        subst hvv
        exact listMean_nonneg hcw.2
    · cases hzq

theorem detect_rejection_zones_wf (cfg : InstitutionalKeyLevels.Config) (df : List Bar)
    (atr : ℚ) (hatr : 0 ≤ atr) (hv : ValidSeries df) :
    ∀ z ∈ InstitutionalKeyLevels.detect_rejection_zones cfg df atr, CandWF z := by
  intro z hz
  rw [InstitutionalKeyLevels.detect_rejection_zones] at hz
  obtain ⟨i, hi, hzi⟩ := List.mem_flatMap.mp hz
  rw [List.mem_range'_1] at hi
  have hilen : i < df.length := by omega
  have hb : ValidBar (df.getD i default) := by
    rw [List.getD_eq_getElem _ _ hilen]
    exact hv _ (List.getElem_mem _)
  have hbmem : df.getD i default ∈ (df.drop i).take 10 :=
    getD_mem_drop_take hilen 10 (by norm_num)
  have h3 : (0:ℚ) ≤ atr * (3/10) := by positivity
  rcases List.mem_append.mp hzi with hzc | hzc
  · split at hzc
    · split at hzc
      · rw [List.mem_singleton] at hzc
        subst hzc
        refine ⟨by simp only; linarith, by simp, ?_, ?_⟩
        · intro r hr
          simp only [Option.some.injEq] at hr
          subst hr
          have hmin : qMinL (((df.drop i).take 10).map Bar.low) ≤
              (df.getD i default).low :=
            qMinL_le_of_mem (List.mem_map_of_mem _ hbmem)
          have : (0:ℚ) ≤ (df.getD i default).high -
              qMinL (((df.drop i).take 10).map Bar.low) := by
            have := ValidBar.low_le_high hb
            linarith
          exact div_nonneg this hatr
        · intro v hvv
          exact absurd hvv (by simp)
      · cases hzc
    · cases hzc
  · split at hzc
    · split at hzc
      · rw [List.mem_singleton] at hzc
        subst hzc
        refine ⟨by simp only; linarith, by simp, ?_, ?_⟩
        · intro r hr
          simp only [Option.some.injEq] at hr
          subst hr
          have hmax : (df.getD i default).high ≤
              qMaxL (((df.drop i).take 10).map Bar.high) :=
            le_qMaxL_of_mem (List.mem_map_of_mem _ hbmem)
          have : (0:ℚ) ≤ qMaxL (((df.drop i).take 10).map Bar.high) -
              (df.getD i default).low := by
            have := ValidBar.low_le_high hb
            linarith
          exact div_nonneg this hatr
        · intro v hvv
          exact absurd hvv (by simp)
      · cases hzc
    · cases hzc

theorem detect_consolidation_expansion_wf (df : List Bar) (atr : ℚ) (hatr : 0 ≤ atr) :
    ∀ z ∈ InstitutionalKeyLevels.detect_consolidation_expansion df atr, CandWF z := by
  intro z hz
  rw [InstitutionalKeyLevels.detect_consolidation_expansion] at hz
  obtain ⟨i, -, hzi⟩ := List.mem_filterMap.mp hz
  have h4 : (0:ℚ) ≤ atr * (4/10) := by positivity
  split at hzi
  · split at hzi
    · cases hzi
      refine ⟨by simp only; linarith, by simp, ?_, ?_⟩
      · intro r hr
        exact absurd hr (by simp)
      · intro v hvv
        exact absurd hvv (by simp)
    · cases hzi
  · cases hzi

theorem detect_structure_breaks_wf (df : List Bar) (atr : ℚ) (hatr : 0 ≤ atr) :
    ∀ z ∈ InstitutionalKeyLevels.detect_structure_breaks df atr, CandWF z := by
  intro z hz
  rw [InstitutionalKeyLevels.detect_structure_breaks] at hz
  obtain ⟨i, -, hzi⟩ := List.mem_flatMap.mp hz
  have h3 : (0:ℚ) ≤ atr * (3/10) := by positivity
  rcases List.mem_append.mp hzi with hzc | hzc <;>
  · split at hzc
    · rw [List.mem_singleton] at hzc
      subst hzc
      refine ⟨by simp only; linarith, by simp, ?_, ?_⟩
      · intro r hr
        exact absurd hr (by simp)
      · intro v hvv
        exact absurd hvv (by simp)
    · cases hzc

theorem mergeGo_clusters (tol : ℚ) (rest : List InstitutionalKeyLevels.Candidate) :
    ∀ cur, cur ≠ [] →
      ∀ c ∈ InstitutionalKeyLevels.mergeGo tol cur rest,
        c ≠ [] ∧ ∀ z ∈ c, z ∈ cur ∨ z ∈ rest := by
  induction rest with
  | nil =>
    intro cur hcur c hc
    rw [InstitutionalKeyLevels.mergeGo, List.mem_singleton] at hc
    subst hc
    exact ⟨hcur, fun z hz => Or.inl hz⟩
  | cons y ys ih =>
    intro cur hcur c hc
    rw [InstitutionalKeyLevels.mergeGo] at hc
    split at hc
    · obtain ⟨hne, hsub⟩ := ih (cur ++ [y]) (by simp) c hc
      refine ⟨hne, fun z hz => ?_⟩
      rcases hsub z hz with hz' | hz'
      · rcases List.mem_append.mp hz' with hz'' | hz''
        · exact Or.inl hz''
        · rw [List.mem_singleton] at hz''
          exact Or.inr (by simp [hz''])
      · exact Or.inr (List.mem_cons_of_mem y hz')
    · rcases List.mem_cons.mp hc with rfl | hc
      · exact ⟨hcur, fun z hz => Or.inl hz⟩
      · obtain ⟨hne, hsub⟩ := ih [y] (by simp) c hc
        refine ⟨hne, fun z hz => ?_⟩
        rcases hsub z hz with hz' | hz'
        · rw [List.mem_singleton] at hz'
          exact Or.inr (by simp [hz'])
        · exact Or.inr (List.mem_cons_of_mem y hz')

theorem mergeClusters_clusters (tol : ℚ) (zs : List InstitutionalKeyLevels.Candidate) :
    ∀ c ∈ InstitutionalKeyLevels.mergeClusters tol zs, c ≠ [] ∧ ∀ z ∈ c, z ∈ zs := by
  cases zs with
  | nil => simp [InstitutionalKeyLevels.mergeClusters]
  | cons y ys =>
    intro c hc
    obtain ⟨hne, hsub⟩ := mergeGo_clusters tol ys [y] (by simp) c hc
    refine ⟨hne, fun z hz => ?_⟩
    rcases hsub z hz with hz' | hz'
    · rw [List.mem_singleton] at hz'
      simp [hz']
    · exact List.mem_cons_of_mem y hz'

theorem merge_cluster_wf (cluster : List InstitutionalKeyLevels.Candidate)
    (hne : cluster ≠ []) (hwf : ∀ z ∈ cluster, CandWF z) :
    MergedWF (InstitutionalKeyLevels.merge_cluster cluster) := by
  have hlen : (0:ℚ) < cluster.length := by
    rw [Nat.cast_pos, List.length_pos]
    exact hne
  refine ⟨?_, ?_, ?_, ?_⟩
  · show listMean (cluster.map InstitutionalKeyLevels.Candidate.price_low) ≤
      listMean (cluster.map InstitutionalKeyLevels.Candidate.price_high)
    unfold listMean
    rw [List.length_map, List.length_map]
    rw [div_le_div_iff_of_pos_right hlen]
    exact List.sum_le_sum fun z hz => (hwf z hz).1
  · show 1 ≤ (cluster.map InstitutionalKeyLevels.Candidate.touches).sum
    obtain ⟨z0, hz0⟩ := List.exists_mem_of_ne_nil cluster hne
    calc 1 ≤ z0.touches := (hwf z0 hz0).2.1
    _ ≤ (cluster.map InstitutionalKeyLevels.Candidate.touches).sum :=
      List.single_le_sum (fun x _ => Nat.zero_le x) _ (List.mem_map_of_mem _ hz0)
  · intro r hr
    show 0 ≤ r
    by_cases hrss : cluster.filterMap InstitutionalKeyLevels.Candidate.reaction_strength = []
    · exact absurd hr (by simp only [InstitutionalKeyLevels.merge_cluster, hrss]; simp)
    · have : (InstitutionalKeyLevels.merge_cluster cluster).reaction_strength =
          some (listMean (cluster.filterMap
            InstitutionalKeyLevels.Candidate.reaction_strength)) := by
        simp only [InstitutionalKeyLevels.merge_cluster, hrss]
        simp
      rw [this] at hr
      injection hr with hr
      subst hr
      refine listMean_nonneg fun x hx => ?_
      obtain ⟨z, hz, hzx⟩ := List.mem_filterMap.mp hx
      exact (hwf z hz).2.2.1 x hzx
  · intro v hv
    show 0 ≤ v
    by_cases hvs : cluster.filterMap InstitutionalKeyLevels.Candidate.avg_volume = []
    · exact absurd hv (by simp only [InstitutionalKeyLevels.merge_cluster, hvs]; simp)
    · have : (InstitutionalKeyLevels.merge_cluster cluster).avg_volume =
          some (listMean (cluster.filterMap
            InstitutionalKeyLevels.Candidate.avg_volume)) := by
        simp only [InstitutionalKeyLevels.merge_cluster, hvs]
        simp
      rw [this] at hv
      injection hv with hv
      subst hv
      refine listMean_nonneg fun x hx => ?_
      obtain ⟨z, hz, hzx⟩ := List.mem_filterMap.mp hx
      exact (hwf z hz).2.2.2 x hzx

theorem merge_nearby_zones_wf (cfg : InstitutionalKeyLevels.Config)
    (zones : List InstitutionalKeyLevels.Candidate) (atr : ℚ)
    (hwf : ∀ z ∈ zones, CandWF z) :
    ∀ m ∈ InstitutionalKeyLevels.merge_nearby_zones cfg zones atr, MergedWF m := by
  intro m hm
  rw [InstitutionalKeyLevels.merge_nearby_zones] at hm
  obtain ⟨c, hc, rfl⟩ := List.mem_map.mp hm
  obtain ⟨hne, hsub⟩ := mergeClusters_clusters _ _ c hc
  exact merge_cluster_wf c hne fun z hz =>
    hwf z ((List.mem_insertionSort _).mp (hsub z hz))

/-- C9: for every valid input series (bars with `low ≤ min(open,close) ≤
max(open,close) ≤ high` and `volume ≥ 0`), every zone output by either engine
satisfies `price_low ≤ price_high`, `0 ≤ strength ≤ 1` and `touches ≥ 1`
(the baseline engine under any non-negative `atr_multiplier`, as configured
everywhere in the repository). -/
theorem output_zone_bounds :
    (∀ (cfg : KeyLevelsDetector.Config) (expQ : ℚ → ℚ) (df : List Bar)
       (zs : List KeyLevelsDetector.Zone), ValidSeries df → 0 ≤ cfg.atr_multiplier →
       KeyLevelsDetector.detect_zones cfg expQ df = Except.ok zs →
       ∀ z ∈ zs, z.price_low ≤ z.price_high ∧ 0 ≤ z.strength ∧ z.strength ≤ 1 ∧
         1 ≤ z.touches) ∧
    (∀ (cfg : InstitutionalKeyLevels.Config) (df : List Bar) (tf : String),
       ValidSeries df →
       ∀ z ∈ InstitutionalKeyLevels.detect_levels cfg df tf,
         z.price_low ≤ z.price_high ∧ 0 ≤ z.strength ∧ z.strength ≤ 1 ∧
           1 ≤ z.touches) := by
  constructor
  · intro cfg expQ df zs hv hm h z hz
    obtain ⟨t, c, M, -, hcne, rfl⟩ := detect_zones_ok_mem h z hz
    have htol : 0 ≤ KeyLevelsDetector.calculate_atr cfg df * cfg.atr_multiplier :=
      mul_nonneg (calculate_atr_nonneg cfg hv) hm
    refine ⟨?_, ?_, ?_, ?_⟩ <;>
      simp only [KeyLevelsDetector.scoreZone, KeyLevelsDetector.create_zone]
    · linarith
    · exact le_min zero_le_one (le_max_left 0 _)
    · exact min_le_left _ _
    · rw [Nat.succ_le_iff, List.length_pos]
      exact hcne
  · intro cfg df tf hv z hz
    rw [InstitutionalKeyLevels.detect_levels] at hz
    split at hz
    · cases hz
    · rw [InstitutionalKeyLevels.classify_zones] at hz
      obtain ⟨s, hs, rfl⟩ := List.mem_map.mp hz
      have hs2 := (List.mem_insertionSort _).mp (List.take_subset _ _ hs)
      rw [InstitutionalKeyLevels.score_zones] at hs2
      obtain ⟨m, hm, rfl⟩ := List.mem_map.mp hs2
      have hatr : 0 ≤ InstitutionalKeyLevels.calculate_atr df 14 :=
        calculate_atr_nonneg_inst 14 hv
      have hmw : MergedWF m := by
        refine merge_nearby_zones_wf cfg _ _ ?_ m hm
        intro z' hz'
        have hall : ∀ z'' ∈ (InstitutionalKeyLevels.detect_volume_nodes cfg df
              (InstitutionalKeyLevels.calculate_atr df 14) ++
            InstitutionalKeyLevels.detect_rejection_zones cfg df
              (InstitutionalKeyLevels.calculate_atr df 14) ++
            InstitutionalKeyLevels.detect_consolidation_expansion df
              (InstitutionalKeyLevels.calculate_atr df 14) ++
            InstitutionalKeyLevels.detect_structure_breaks df
              (InstitutionalKeyLevels.calculate_atr df 14)), CandWF z'' := by
          intro z'' hz''
          rcases List.mem_append.mp hz'' with h3 | h4
          · rcases List.mem_append.mp h3 with h5 | h6
            · rcases List.mem_append.mp h5 with h7 | h8
              · exact detect_volume_nodes_wf cfg df _ hatr hv z'' h7
              · exact detect_rejection_zones_wf cfg df _ hatr hv z'' h8
            · exact detect_consolidation_expansion_wf df _ hatr z'' h6
          · exact detect_structure_breaks_wf df _ hatr z'' h4
        split at hz'
        · rw [InstitutionalKeyLevels.remove_broken_levels] at hz'
          exact hall z' (List.mem_of_mem_filter (List.mem_of_mem_filter hz'))
        · exact hall z' (List.mem_of_mem_filter hz')
      have hw : 0 < InstitutionalKeyLevels.get_timeframe_weight tf :=
        get_timeframe_weight_pos tf
      have hraw : 0 ≤ InstitutionalKeyLevels.rawScore df m :=
        rawScore_nonneg df m hmw.2.2.1 hmw.2.2.2 fun b hb => (hv b hb).2.2
      refine ⟨?_, ?_, ?_, ?_⟩ <;>
        simp only [InstitutionalKeyLevels.classifyZone, InstitutionalKeyLevels.scoreZoneI]
      · exact hmw.1
      · exact div_nonneg (le_min (mul_nonneg hraw (le_of_lt hw)) (by norm_num))
          (by norm_num)
      · rw [div_le_one (by norm_num)]
        exact min_le_right _ _
      · exact hmw.2.1

/-- Witness for C9: the first zone computed by each engine on a concrete
valid series. -/
theorem output_zone_bounds_witness :
    ((c10Zones.headD default).price_low ≤ (c10Zones.headD default).price_high ∧
      0 ≤ (c10Zones.headD default).strength ∧ (c10Zones.headD default).strength ≤ 1 ∧
      1 ≤ (c10Zones.headD default).touches) ∧
    ((c9Zones.headD ⟨0, 0, 0, 0, none, none, 0, 0, "", ⟨"", 0⟩⟩).price_low ≤
        (c9Zones.headD ⟨0, 0, 0, 0, none, none, 0, 0, "", ⟨"", 0⟩⟩).price_high ∧
      0 ≤ (c9Zones.headD ⟨0, 0, 0, 0, none, none, 0, 0, "", ⟨"", 0⟩⟩).strength ∧
      (c9Zones.headD ⟨0, 0, 0, 0, none, none, 0, 0, "", ⟨"", 0⟩⟩).strength ≤ 1 ∧
      1 ≤ (c9Zones.headD ⟨0, 0, 0, 0, none, none, 0, 0, "", ⟨"", 0⟩⟩).touches) :=
  ⟨output_zone_bounds.1 {} (fun _ => 0) c10Series c10Zones
    (by with_unfolding_all exact of_decide_eq_true rfl) (by norm_num)
    (by with_unfolding_all rfl) _
    (headD_mem default (by with_unfolding_all exact of_decide_eq_true rfl)),
   output_zone_bounds.2 c9Config c9Series "1d"
    (by with_unfolding_all exact of_decide_eq_true rfl) _
    (headD_mem _ (by with_unfolding_all exact of_decide_eq_true rfl))⟩
